import Mathlib

/-!
Verification of the Archery Coach tracker (`src/app.js`, second document,
storage key `archeryCoach.v2`).

The development shallowly embeds the data layer of the program:

* `JVal` models the JavaScript/JSON values the normalizer manipulates.
  JavaScript `undefined` is `JVal.undef` (distinct from JSON `null`);
  numbers are modelled as integers (the normalizer and the serializer
  never inspect a number beyond zero-testing and digit rendering, and all
  claim-relevant documents carry integral scores).
* `loadStateNorm` is the normalization performed by `loadState`
  (app.js 1617-1669): default-merge, settings merge, list coercion,
  profile synthesis, active-profile repair, profileId back-fill, and the
  two legacy bullseye migrations.  The two property accesses that can
  throw a `TypeError` in the source (`parsed.settings` on a null root and
  `st.profiles[0].id` on a null first profile) are modelled explicitly and
  routed to the `catch` branch, which returns a fresh default document.
  The script is a classic (non-strict) script, so property assignments to
  primitive bases are silent no-ops and are modelled as such.
* `compactJ`/`prettyJ` model `JSON.stringify(v)` and
  `JSON.stringify(v, null, 2)` used by `saveState` (app.js 1671-1673) and
  the export button handler (app.js 3201-3212).
* Typed models cover the scoring functions (`competitionMax`,
  `competitionTotal`, `practiceTotals`), the statistics primitive
  `linearSlope`, the import change handler, and the profile delete
  handler.
-/

namespace Archery

/-- JavaScript values as manipulated by the normalizer.  `undef` models
`undefined`; object fields are an insertion-ordered association list, as
in JavaScript property order for non-integer keys. -/
inductive JVal : Type where
  | undef : JVal
  | null : JVal
  | bool : Bool → JVal
  | num : Int → JVal
  | str : String → JVal
  | arr : List JVal → JVal
  | obj : List (String × JVal) → JVal

/-- JavaScript truthiness (`0`, `''`, `null`, `undefined`, `false` are
falsy; every object and array is truthy). -/
def truthy : JVal → Bool
  | .undef => false
  | .null => false
  | .bool b => b
  | .num n => n != 0
  | .str s => s != ""
  | .arr _ => true
  | .obj _ => true

/-- `null` or `undefined`: property access on such a base throws. -/
def nullish : JVal → Bool
  | .undef => true
  | .null => true
  | _ => false

def isUndef : JVal → Bool
  | .undef => true
  | _ => false

def isNum : JVal → Bool
  | .num _ => true
  | _ => false

/-- First binding of `key`, mirroring JavaScript property lookup. -/
def lookupField : List (String × JVal) → String → Option JVal
  | [], _ => none
  | (k, v) :: rest, key => if k = key then some v else lookupField rest key

/-- JavaScript property assignment on an object: update the first
occurrence in place (insertion position is kept), or append a new
binding. -/
def setField : List (String × JVal) → String → JVal → List (String × JVal)
  | [], key, v => [(key, v)]
  | (k, w) :: rest, key, v =>
      if k = key then (k, v) :: rest else (k, w) :: setField rest key v

/-- Property read `base[key]` on a non-nullish base: `undefined` unless
`base` is an object that carries the key.  (Reads of the names used by
the normalizer on strings, numbers, booleans and arrays all give
`undefined` in JavaScript.) -/
def getField : JVal → String → JVal
  | .obj fs, key => (lookupField fs key).getD .undef
  | _, _ => (.undef)

/-- Property assignment `base[key] = v` in sloppy mode: mutates objects,
is a silent no-op on any other base (the script has no strict-mode
directive). -/
def setObjField : JVal → String → JVal → JVal
  | .obj fs, key, v => .obj (setField fs key v)
  | other, _, _ => other

/-- Own enumerable properties of a value, as consumed by
`Object.assign`: an object contributes its fields, an array its indexed
elements, a string its indexed characters, and primitives contribute
nothing. -/
def sourceProps : JVal → List (String × JVal)
  | .obj fs => fs
  | .arr xs => xs.enum.map (fun p => (toString p.1, p.2))
  | .str s => s.data.enum.map (fun p => (toString p.1, JVal.str (String.mk [p.2])))
  | _ => []

/-- `Object.assign(base, src)` over field lists. -/
def mergeFields (base src : List (String × JVal)) : List (String × JVal) :=
  src.foldl (fun acc kv => setField acc kv.1 kv.2) base

/-- `Array.isArray(v) ? v : []` (app.js 1625-1627). -/
def arrOr : JVal → List JVal
  | .arr xs => xs
  | _ => []

/-- The guard of the profile-synthesis branch (app.js 1630):
`Array.isArray(st.profiles) && st.profiles.length > 0` yields the kept
profiles list. -/
def nonemptyArr? : JVal → Option (List JVal)
  | .arr (x :: xs) => some (x :: xs)
  | _ => none

/-- The profile object built by `defaultState` and by the synthesis
branch (app.js 1604-1606, 1632). -/
def profileObj (pid now : String) : JVal :=
  .obj [("id", .str pid), ("name", .str "Archer 1"), ("createdAt", .str now)]

/-- Top-level keys of `defaultState()` (app.js 1601-1615). -/
def topKeys : List String :=
  ["profiles", "activeProfileId", "practice", "competitions", "aimMaps", "settings"]

/-- Field list of `defaultState()` given the `uid()` and
`new Date().toISOString()` results of that call. -/
def defaultStateFields (pid now : String) : List (String × JVal) :=
  [("profiles", .arr [profileObj pid now]),
   ("activeProfileId", .str pid),
   ("practice", .arr []),
   ("competitions", .arr []),
   ("aimMaps", .arr []),
   ("settings", .obj [("animalScoring", .str "nasp3d")])]

/-- The in-memory document produced by `loadState`, with the six known
top-level fields split out and any extra top-level keys of the parsed
input preserved (as `Object.assign` preserves them). -/
structure NormSt : Type where
  profiles : List JVal
  activeProfileId : JVal
  practice : List JVal
  competitions : List JVal
  aimMaps : List JVal
  settings : List (String × JVal)
  extras : List (String × JVal)

/-- `defaultState()` as a `NormSt`. -/
def defaultSt (pid now : String) : NormSt :=
  { profiles := [profileObj pid now]
    activeProfileId := .str pid
    practice := []
    competitions := []
    aimMaps := []
    settings := [("animalScoring", .str "nasp3d")]
    extras := [] }

/-- Reinjection of the in-memory document as a JavaScript object: the six
known keys in `defaultState` insertion order followed by preserved extra
keys. -/
def toJVal (st : NormSt) : JVal :=
  .obj ([("profiles", .arr st.profiles),
         ("activeProfileId", st.activeProfileId),
         ("practice", .arr st.practice),
         ("competitions", .arr st.competitions),
         ("aimMaps", .arr st.aimMaps),
         ("settings", .obj st.settings)] ++ st.extras)

/-- The `uid()` / `new Date().toISOString()` results consumed by one
`loadState` run: one pair for the `defaultState()` merged over
(app.js 1623), one for the synthesis branch (app.js 1631-1633), one for
the `defaultState()` built in the catch handler (app.js 1667). -/
structure Uids : Type where
  mPid : String
  mNow : String
  sPid : String
  sNow : String
  cPid : String
  cNow : String

/-- Back-fill of a missing `profileId` (app.js 1637-1639):
`if (r && !r.profileId) r.profileId = pid`. -/
def backfillOne (pid : JVal) (r : JVal) : JVal :=
  if truthy r && !truthy (getField r "profileId") then
    setObjField r "profileId" pid
  else r

/-- `typeof x === 'number' ? [x] : x` followed by
`Array.isArray(x) ? x : []` — the practice bullseye list migration
(app.js 1644-1647). -/
def coerceRounds : JVal → JVal
  | .num n => .arr [.num n]
  | .arr xs => .arr xs
  | _ => .arr []

/-- Practice-session migration (app.js 1642-1649): if `s.bullseye` is a
truthy object, its `m10`/`m15` are coerced to lists (in that key order).
On a truthy non-object `bullseye` the assignments fall on a primitive or
array base and change nothing observable. -/
def migratePracticeOne (s : JVal) : JVal :=
  if truthy s && truthy (getField s "bullseye") then
    match getField s "bullseye" with
    | .obj bfs =>
        let bfs1 := setField bfs "m10" (coerceRounds ((lookupField bfs "m10").getD .undef))
        let bfs2 := setField bfs1 "m15" (coerceRounds ((lookupField bfs1 "m15").getD .undef))
        setObjField s "bullseye" (.obj bfs2)
    | _ => s
  else s

/-- `typeof x === 'number' ? x : 0` used by the competition migration
(app.js 1656-1657). -/
def numOrZero : JVal → JVal
  | .num n => .num n
  | _ => .num 0

/-- Whether `getField c "round"` is the string `name`. -/
def roundIs (c : JVal) (name : String) : Bool :=
  match getField c "round" with
  | .str r => r == name
  | _ => false

/-- Competition legacy migration (app.js 1650-1662): a bullseye record
whose bullseye block holds a bare-number `m10` or `m15` is rewritten to
`{format:'legacy', m10:[..], m15:[..]}` and gets `category:'adult'` when
its category is falsy. -/
def migrateCompOne (c : JVal) : JVal :=
  if truthy c && roundIs c "bullseye" && truthy (getField c "bullseye") then
    let b := getField c "bullseye"
    if isNum (getField b "m10") || isNum (getField b "m15") then
      let newB : JVal := .obj [("format", .str "legacy"),
                               ("m10", .arr [numOrZero (getField b "m10")]),
                               ("m15", .arr [numOrZero (getField b "m15")])]
      let c1 := setObjField c "bullseye" newB
      if !truthy (getField c1 "category") then
        setObjField c1 "category" (.str "adult")
      else c1
    else c
  else c

/-- `Object.assign(defaultState(), parsed)` (app.js 1623). -/
def mergedOf (u : Uids) (parsed : JVal) : List (String × JVal) :=
  mergeFields (defaultStateFields u.mPid u.mNow) (sourceProps parsed)

/-- `Object.assign(defaultState().settings, parsed.settings || {})`
(app.js 1624). -/
def settingsOf (parsed : JVal) : List (String × JVal) :=
  mergeFields [("animalScoring", .str "nasp3d")]
    (if truthy (getField parsed "settings") then sourceProps (getField parsed "settings") else [])

/-- Steps of `loadState` after the profiles list and the surviving
`activeProfileId` candidate are known: active-profile repair (with the
possible throw on a nullish first profile, caught into a fresh default
state), the `profileId` back-fill, the two migrations, and preservation
of extra top-level keys. -/
def afterProfiles (u : Uids) (merged settings : List (String × JVal))
    (practice0 competitions0 aimMaps0 : List JVal)
    (profiles : List JVal) (active1 : JVal) : NormSt :=
  let actOpt : Option JVal :=
    if truthy active1 then some active1
    else
      match profiles with
      | [] => some .undef
      | h :: _ => if nullish h then none else some (getField h "id")
  match actOpt with
  | none => defaultSt u.cPid u.cNow
  | some pid =>
      { profiles := profiles
        activeProfileId := pid
        practice := (practice0.map (backfillOne pid)).map migratePracticeOne
        competitions := (competitions0.map (backfillOne pid)).map migrateCompOne
        aimMaps := aimMaps0.map (backfillOne pid)
        settings := settings
        extras := merged.filter (fun kv => !(topKeys.contains kv.1)) }

/-- The normalization performed by `loadState` on a successfully parsed
value (app.js 1621-1664), with the `catch` recovery (app.js 1665-1668)
for the two property accesses that throw on nullish bases. -/
def loadStateNorm (u : Uids) (parsed : JVal) : NormSt :=
  if nullish parsed then defaultSt u.cPid u.cNow
  else
    let merged := mergedOf u parsed
    let settings := settingsOf parsed
    let practice0 := arrOr ((lookupField merged "practice").getD .undef)
    let competitions0 := arrOr ((lookupField merged "competitions").getD .undef)
    let aimMaps0 := arrOr ((lookupField merged "aimMaps").getD .undef)
    match nonemptyArr? ((lookupField merged "profiles").getD .undef) with
    | some xs =>
        afterProfiles u merged settings practice0 competitions0 aimMaps0 xs
          ((lookupField merged "activeProfileId").getD .undef)
    | none =>
        afterProfiles u merged settings practice0 competitions0 aimMaps0
          [profileObj u.sPid u.sNow] (.str u.sPid)

/-- `loadState` (app.js 1617-1669): absent or unparseable storage text
yields a fresh default document; a parsed value is normalized. -/
def loadState (u : Uids) (raw : Option JVal) : NormSt :=
  match raw with
  | none => defaultSt u.cPid u.cNow
  | some parsed => loadStateNorm u parsed

/-! ### JSON serialization

`saveState` (app.js 1671-1673) writes `JSON.stringify(state)` into the
storage slot; the export handler (app.js 3201-3212) downloads
`JSON.stringify(state, null, 2)`.  Characters that the token scanner of
this development treats specially are built with `Char.ofNat`. -/

def dqChar : Char := Char.ofNat 34
def bsChar : Char := Char.ofNat 92
def nlChar : Char := Char.ofNat 10
def spChar : Char := Char.ofNat 32
def lbChar : Char := Char.ofNat 123
def rbChar : Char := Char.ofNat 125
def lkChar : Char := Char.ofNat 91
def rkChar : Char := Char.ofNat 93
def cmChar : Char := Char.ofNat 44
def clChar : Char := Char.ofNat 58

/-- JSON string escaping of one character (quote, backslash and the
common control characters; other characters are emitted verbatim). -/
def escapeChar (c : Char) : List Char :=
  if c = dqChar then [bsChar, dqChar]
  else if c = bsChar then [bsChar, bsChar]
  else if c = nlChar then [bsChar, 'n']
  else if c = Char.ofNat 9 then [bsChar, 't']
  else if c = Char.ofNat 13 then [bsChar, 'r']
  else [c]

def escapeStr (s : List Char) : List Char := (s.map escapeChar).flatten

/-- A JSON string literal. -/
def quoteStr (s : String) : List Char := dqChar :: escapeStr s.data ++ [dqChar]

def digitChar (d : Nat) : Char := Char.ofNat (48 + d)

/-- Decimal digits of a natural number. -/
def natChars (n : Nat) : List Char :=
  if n < 10 then [digitChar n] else natChars (n / 10) ++ [digitChar (n % 10)]
decreasing_by
  exact Nat.div_lt_self (by omega) (by omega)

/-- Decimal rendering of an integer, as `String(n)` renders an integral
JavaScript number. -/
def intChars (i : Int) : List Char :=
  if i < 0 then '-' :: natChars i.natAbs else natChars i.natAbs

/-- Whether an object still has a field that `JSON.stringify` would emit
(fields holding `undefined` are skipped). -/
def hasKept (fs : List (String × JVal)) : Bool := fs.any (fun kv => !isUndef kv.2)

/-- An `undefined` array element serializes as `null`. -/
def normElem (v : JVal) : JVal := if isUndef v then .null else v

mutual

/-- `JSON.stringify(v)`: compact serialization. -/
def compactJ : JVal → List Char
  | .undef => []
  | .null => "null".data
  | .bool b => if b then "true".data else "false".data
  | .num n => intChars n
  | .str s => quoteStr s
  | .arr xs => lkChar :: compactArr xs ++ [rkChar]
  | .obj fs => lbChar :: compactObj fs ++ [rbChar]

def compactArr : List JVal → List Char
  | [] => []
  | [x] => if isUndef x then "null".data else compactJ x
  | x :: y :: rest =>
      (if isUndef x then "null".data else compactJ x) ++ cmChar :: compactArr (y :: rest)

def compactObj : List (String × JVal) → List Char
  | [] => []
  | (k, v) :: rest =>
      if isUndef v then compactObj rest
      else quoteStr k ++ clChar :: compactJ v ++
        (if hasKept rest then cmChar :: compactObj rest else [])

end

/-- Indentation prefix at nesting depth `d` for a 2-space indent. -/
def ind (d : Nat) : List Char := List.replicate (2 * d) spChar

mutual

/-- `JSON.stringify(v, null, 2)`: pretty serialization with 2-space
indent, as produced for the export artifact. -/
def prettyJ : Nat → JVal → List Char
  | _, .undef => []
  | _, .null => "null".data
  | _, .bool b => if b then "true".data else "false".data
  | _, .num n => intChars n
  | _, .str s => quoteStr s
  | _, .arr [] => [lkChar, rkChar]
  | d, .arr (x :: xs) =>
      lkChar :: nlChar :: prettyArr (d + 1) (x :: xs) ++ nlChar :: ind d ++ [rkChar]
  | d, .obj fs =>
      if hasKept fs then lbChar :: nlChar :: prettyObj (d + 1) fs ++ nlChar :: ind d ++ [rbChar]
      else [lbChar, rbChar]

def prettyArr : Nat → List JVal → List Char
  | _, [] => []
  | d, [x] => ind d ++ (if isUndef x then "null".data else prettyJ d x)
  | d, x :: y :: rest =>
      ind d ++ (if isUndef x then "null".data else prettyJ d x) ++
        cmChar :: nlChar :: prettyArr d (y :: rest)

def prettyObj : Nat → List (String × JVal) → List Char
  | _, [] => []
  | d, (k, v) :: rest =>
      if isUndef v then prettyObj d rest
      else ind d ++ quoteStr k ++ clChar :: spChar :: prettyJ d v ++
        (if hasKept rest then cmChar :: nlChar :: prettyObj d rest else [])

end

mutual

/-- String-literal-aware whitespace removal: deletes spaces and newlines
that sit outside JSON string literals and keeps string contents (with
their escape pairs) verbatim. -/
def stripWS : List Char → List Char
  | [] => []
  | c :: rest =>
      if c = dqChar then dqChar :: stripStr rest
      else if c = spChar || c = nlChar then stripWS rest
      else c :: stripWS rest

def stripStr : List Char → List Char
  | [] => []
  | [c] => [c]
  | c :: c2 :: rest =>
      if c = bsChar then c :: c2 :: stripStr rest
      else if c = dqChar then c :: stripWS (c2 :: rest)
      else c :: stripStr (c2 :: rest)

end

/-- The text `saveState` persists into the storage slot (app.js 1672). -/
def saveStateText (st : NormSt) : List Char := compactJ (toJVal st)

/-- The content of the export artifact (app.js 3202). -/
def exportText (st : NormSt) : List Char := prettyJ 0 (toJVal st)

/-! ### Scoring (app.js 2060-2083, 2302-2315, 2399-2418)

Scores are JSON numbers; they are modelled as rationals.  `safeNumber`
(app.js 1594-1597) maps any non-finite number to 0 and is the identity on
the finite values representable here; the `Number.isFinite` filters
inside `sum`/`meanOrNull` therefore keep every element. -/

def safeNumber (q : ℚ) : ℚ := q

/-- `sum` (app.js 2066-2068). -/
def sum (l : List ℚ) : ℚ := (l.map safeNumber).sum

/-- `meanOrNull` (app.js 2060-2064). -/
def meanOrNull (l : List ℚ) : Option ℚ :=
  if l.length = 0 then none else some ((l.map safeNumber).sum / l.length)

/-- A practice bullseye block; `none` in `m10`/`m15` models an absent or
non-array field (coerced to `[]` by `practiceTotals`). -/
structure PracBull : Type where
  m10 : Option (List ℚ)
  m15 : Option (List ℚ)

structure AnimalRow : Type where
  distance : ℚ
  animal : String
  score : ℚ

/-- The fields of a practice session consumed by `practiceTotals`. -/
structure PracticeSession : Type where
  bullseye : Option PracBull
  animal : Option (List AnimalRow)

structure PracticeTotals : Type where
  bull10Sum : Option ℚ
  bull15Sum : Option ℚ
  bull10Avg : Option ℚ
  bull15Avg : Option ℚ
  bullTotalSum : Option ℚ
  animalTotal : Option ℚ
deriving DecidableEq

/-- `practiceTotals` (app.js 2070-2083). -/
def practiceTotals (s : PracticeSession) : PracticeTotals :=
  let animalTot := s.animal.map (fun rows => rows.foldl (fun acc r => acc + safeNumber r.score) 0)
  match s.bullseye with
  | none =>
      { bull10Sum := none, bull15Sum := none, bull10Avg := none, bull15Avg := none
        bullTotalSum := none, animalTotal := animalTot }
  | some b =>
      let m10 := b.m10.getD []
      let m15 := b.m15.getD []
      { bull10Sum := if m10.length ≠ 0 then some (sum m10) else none
        bull15Sum := if m15.length ≠ 0 then some (sum m15) else none
        bull10Avg := if m10.length ≠ 0 then meanOrNull m10 else none
        bull15Avg := if m15.length ≠ 0 then meanOrNull m15 else none
        bullTotalSum := some (sum m10 + sum m15)
        animalTotal := animalTot }

/-- One of the two sets of a `2sets` bullseye result. -/
structure SetPair : Type where
  m10 : Option (List ℚ)
  m15 : Option (List ℚ)

/-- A competition bullseye block as the scoring functions duck-type it:
a `format` tag plus whichever of `m10`/`m15`/`sets` are present. -/
structure BullRes : Type where
  format : String
  m10 : Option (List ℚ)
  m15 : Option (List ℚ)
  sets : Option (List SetPair)

/-- The fields of a competition record consumed by `competitionTotal`
and `competitionMax`. -/
structure CompRec : Type where
  round : String
  category : Option String
  bullseye : Option BullRes
  animal : Option (List AnimalRow)

/-- `c.category || 'adult'`: a missing or empty category falls back to
`'adult'` (app.js 2305). -/
def catOrAdult : Option String → String
  | none => "adult"
  | some s => if s = "" then "adult" else s

/-- `Array.isArray(x) ? x.length : 0` (app.js 2309-2310). -/
def lenOr0 : Option (List ℚ) → Nat
  | some l => l.length
  | none => 0

/-- `competitionMax` (app.js 2302-2315). -/
def competitionMax (c : CompRec) : Option ℚ :=
  if c.round = "animal" then none
  else if c.round = "bullseye" then
    let cat := catOrAdult c.category
    if cat = "cub" ∨ cat = "beginner" then some 200
    else if cat = "junior" ∨ cat = "senior" ∨ cat = "adult" then some 600
    else
      match c.bullseye with
      | some b =>
          if b.format = "legacy" then
            some (((lenOr0 b.m10 : ℚ) + (lenOr0 b.m15 : ℚ)) * 50)
          else none
      | none => none
  else none

/-- The trailing animal-round branch of `competitionTotal`
(app.js 2416-2417), also reached by fall-through from an unrecognized
bullseye shape. -/
def compAnimalPart (c : CompRec) : ℚ :=
  if c.round = "animal" then
    match c.animal with
    | some rows => rows.foldl (fun acc r => acc + safeNumber r.score) 0
    | none => 0
  else 0

/-- `competitionTotal` (app.js 2399-2418). -/
def competitionTotal (c : CompRec) : ℚ :=
  if c.round = "bullseye" then
    match c.bullseye with
    | some b =>
        if b.format = "4x10" then sum (b.m10.getD [])
        else if b.format = "2sets" then
          (b.sets.getD []).foldl
            (fun acc st => acc + sum (st.m10.getD []) + sum (st.m15.getD [])) 0
        else if b.format = "legacy" then sum (b.m10.getD []) + sum (b.m15.getD [])
        else compAnimalPart c
    | none => compAnimalPart c
  else compAnimalPart c

/-! ### Statistics primitives (app.js 2712-2741) -/

/-- `mean` (app.js 2712): 0 on the empty sequence. -/
def mean (l : List ℚ) : ℚ := if l.length = 0 then 0 else l.sum / l.length

/-- `linearSlope` (app.js 2729-2741): least-squares slope of the values
against the index positions `0..n-1`. -/
def linearSlope (values : List ℚ) : Option ℚ :=
  let n := values.length
  if n < 2 then none
  else
    let xs : List ℚ := (List.range n).map (fun (i : ℕ) => (i : ℚ))
    let mx := mean xs
    let my := mean values
    let num := ((List.range n).map (fun (i : ℕ) => ((i : ℚ) - mx) * (values.getD i 0 - my))).sum
    let den := ((List.range n).map (fun (i : ℕ) => ((i : ℚ) - mx) * ((i : ℚ) - mx))).sum
    if den = 0 then none else some (num / den)

/-- Modelled from the spec: the textbook ordinary-least-squares slope of
`ys` against the index positions `0..n-1`, in the uncentered form
`(n·Σxy − Σx·Σy) / (n·Σx² − (Σx)²)`. -/
def olsSlope (ys : List ℚ) : ℚ :=
  let n : ℚ := ys.length
  let sx := ((List.range ys.length).map (fun (i : ℕ) => (i : ℚ))).sum
  let sy := ys.sum
  let sxy := ((List.range ys.length).map (fun (i : ℕ) => (i : ℚ) * ys.getD i 0)).sum
  let sxx := ((List.range ys.length).map (fun (i : ℕ) => (i : ℚ) * (i : ℚ))).sum
  (n * sxy - sx * sy) / (n * sxx - sx * sx)

/-! ### Import (app.js 3216-3239) -/

/-- The merge the import handler applies to a parsed file
(app.js 3223-3227); `none` models the `TypeError` thrown by
`imported.settings` on a null root, which the surrounding catch absorbs. -/
def importMerge (pid now : String) (imported : JVal) : Option (List (String × JVal)) :=
  if nullish imported then none
  else
    let st0 := mergeFields (defaultStateFields pid now) (sourceProps imported)
    let st1 := setField st0 "settings"
      (.obj (mergeFields [("animalScoring", .str "nasp3d")]
        (if truthy (getField imported "settings") then sourceProps (getField imported "settings")
         else [])))
    let st2 := setField st1 "practice" (.arr (arrOr (getField imported "practice")))
    let st3 := setField st2 "competitions" (.arr (arrOr (getField imported "competitions")))
    let st4 := setField st3 "aimMaps" (.arr (arrOr (getField imported "aimMaps")))
    some st4

/-- Observable outcome of the import change handler: the storage slot,
the in-memory document, and the alert shown to the user. -/
structure ImportOutcome : Type where
  stored : Option (List Char)
  memDoc : JVal
  message : String

def importFailMsg : String := "Import failed: invalid JSON or incompatible format."

def importOkMsg : String := "Import complete."

/-- The import change handler (app.js 3216-3239): on a successful parse
and merge the in-memory document is replaced and saved; any throw inside
the try block (a parse failure, or the merge of a null root) reaches the
catch, which alerts a failure and leaves the storage slot and the
in-memory document untouched. -/
def importFileChange (pid now : String) (stored : Option (List Char)) (memDoc : JVal)
    (parseResult : Except Unit JVal) : ImportOutcome :=
  match parseResult with
  | .error _ => ⟨stored, memDoc, importFailMsg⟩
  | .ok imported =>
      match importMerge pid now imported with
      | none => ⟨stored, memDoc, importFailMsg⟩
      | some st => ⟨some (compactJ (.obj st)), .obj st, importOkMsg⟩

/-! ### Profiles (app.js 1542-1562, 3312-3330) -/

structure Profile : Type where
  id : String
  name : String
  createdAt : String
deriving DecidableEq

/-- A practice session, competition record or aim map as seen by the
profile machinery: only `id` and the `profileId` foreign key matter
(`none` models a missing or null `profileId`). -/
structure OwnedRec : Type where
  id : String
  profileId : Option String
deriving DecidableEq

structure AppState : Type where
  profiles : List Profile
  activeProfileId : Option String
  practice : List OwnedRec
  competitions : List OwnedRec
  aimMaps : List OwnedRec
deriving DecidableEq

/-- `getActiveProfileId` (app.js 1542-1546). -/
def getActiveProfileId (st : AppState) : Option String :=
  match st.activeProfileId with
  | some s =>
      if s ≠ "" then some s
      else match st.profiles with
           | p :: _ => some p.id
           | [] => none
  | none =>
      match st.profiles with
      | p :: _ => some p.id
      | [] => none

/-- `(r.profileId || pid)`: the effective owner of a record for display
purposes (app.js 1560-1562). -/
def effectiveOwner (pid : Option String) (r : OwnedRec) : Option String :=
  match r.profileId with
  | some s => if s ≠ "" then some s else pid
  | none => pid

/-- `practiceForActive` (app.js 1560): the sessions whose effective owner
is the active profile. -/
def practiceForActive (st : AppState) : List OwnedRec :=
  let pid := getActiveProfileId st
  st.practice.filter (fun r => effectiveOwner pid r == pid)

/-- The delete-profile click handler (app.js 3312-3330): refused while at
most one profile exists or when the confirm dialog is declined; otherwise
the records whose `profileId` strictly equals the profile's id are
dropped, the profile is removed, and a deleted active profile is replaced
by the first remaining profile.  (With duplicated profile ids the source
would throw on `state.profiles[0].id` of an emptied list; this is
modelled as a `none` active id and excluded by distinct-id hypotheses.) -/
def deleteProfileClick (st : AppState) (p : Profile) (confirmOk : Bool) : AppState :=
  if st.profiles.length ≤ 1 then st
  else if !confirmOk then st
  else
    let practice := st.practice.filter (fun r => r.profileId != some p.id)
    let competitions := st.competitions.filter (fun r => r.profileId != some p.id)
    let aimMaps := st.aimMaps.filter (fun r => r.profileId != some p.id)
    let profiles := st.profiles.filter (fun x => x.id != p.id)
    let active :=
      if st.activeProfileId = some p.id then profiles.head?.map (·.id)
      else st.activeProfileId
    ⟨profiles, active, practice, competitions, aimMaps⟩

/-! ### Spec-side definitions and concrete records used by the claims -/

/-- Modelled from the spec (§4.2): `competitionTotal` as the spec words
it — a format-dispatched sum, with animal rounds summing the per-distance
scores and unknown or absent shapes summing to 0. -/
def totalSpec (c : CompRec) : ℚ :=
  if c.round = "animal" then
    match c.animal with
    | some rows => (rows.map (·.score)).sum
    | none => 0
  else if c.round = "bullseye" then
    match c.bullseye with
    | some b =>
        if b.format = "4x10" then (b.m10.getD []).sum
        else if b.format = "2sets" then
          ((b.sets.getD []).map (fun st => (st.m10.getD []).sum + (st.m15.getD []).sum)).sum
        else if b.format = "legacy" then (b.m10.getD []).sum + (b.m15.getD []).sum
        else 0
    | none => 0
  else 0

/-- The amended reading of the `competitionMax` dispatch: category takes
precedence over the legacy-format rule, the absent or empty category
defaulting to `'adult'`; the `(entries × 50)` rule fires only for a
bullseye record whose effective category is none of the five recognized
ones and whose result is tagged `'legacy'`. -/
def maxAmended (c : CompRec) : Option ℚ :=
  if c.round ≠ "bullseye" then none
  else
    let cat := catOrAdult c.category
    if cat ∈ ["cub", "beginner"] then some 200
    else if cat ∈ ["junior", "senior", "adult"] then some 600
    else
      match c.bullseye with
      | some b =>
          if b.format = "legacy" then
            some (((lenOr0 b.m10 + lenOr0 b.m15 : ℕ) : ℚ) * 50)
          else none
      | none => none

/-- The spec's `4x10` example record: `m10 = [20,18,19,20]`. -/
def rec4x10 : CompRec :=
  ⟨"bullseye", some "cub", some ⟨"4x10", some [20, 18, 19, 20], none, none⟩, none⟩

/-- The spec's `2sets` example record: both sets
`{m10:[9,9,8], m15:[7,8,9]}`. -/
def rec2sets : CompRec :=
  ⟨"bullseye", some "adult",
   some ⟨"2sets", none, none,
         some [⟨some [9, 9, 8], some [7, 8, 9]⟩, ⟨some [9, 9, 8], some [7, 8, 9]⟩]⟩,
   none⟩

/-- A record as produced by the legacy competition migration
(app.js 1650-1662) from a stored bullseye record with bare-number scores
and no category: format `'legacy'` with singleton lists, category
defaulted to `'adult'`. -/
def recLegacyMigrated : CompRec :=
  ⟨"bullseye", some "adult", some ⟨"legacy", some [5], some [7], none⟩, none⟩

/-- The spec's practice-totals example session:
`bullseye: {m10: [], m15: [8, 9]}`. -/
def sessC6 : PracticeSession := ⟨some ⟨some [], some [8, 9]⟩, none⟩

/-- The active profile id of a normalized document denotes a member of
its profiles list. -/
def activeResolves (st : NormSt) : Prop :=
  ∃ p ∈ st.profiles, st.activeProfileId = getField p "id"

/-- The value merged over the `profiles` key (before the synthesis
check). -/
def mergedProfilesVal (u : Uids) (parsed : JVal) : JVal :=
  (lookupField (mergedOf u parsed) "profiles").getD (.undef)

/-- The value merged over the `activeProfileId` key (before the repair
check). -/
def mergedActiveVal (u : Uids) (parsed : JVal) : JVal :=
  (lookupField (mergedOf u parsed) "activeProfileId").getD (.undef)

/-- The stored input exhibiting the dangling-active-id behavior: one
profile with id `"a"`, and a non-empty `activeProfileId` `"zzz"` that
matches no profile. -/
def danglingInput : JVal :=
  .obj [("profiles", .arr [.obj [("id", .str "a")]]), ("activeProfileId", .str "zzz")]

/-- A fixed uid/timestamp supply for concrete evaluations. -/
def uidsA : Uids := ⟨"mp", "mn", "sp", "sn", "cp", "cn"⟩

/-- The keys of a field list, in order. -/
def keysOf (l : List (String × JVal)) : List String := l.map Prod.fst

/-- Own-property lookup: `some` only on objects that carry the key. -/
def lookupProp : JVal → String → Option JVal
  | .obj fs, k => lookupField fs k
  | _, _ => none

def isObjJ : JVal → Bool
  | .obj _ => true
  | _ => false

def pA : Profile := ⟨"a", "Archer A", "t0"⟩

def pB : Profile := ⟨"b", "Archer B", "t0"⟩

/-- A two-profile state used to exercise the delete handler: profile
`"a"` is active and owns records, one record per collection belongs to
`"b"` or to nobody. -/
def stW : AppState :=
  ⟨[pA, pB], some "a",
   [⟨"r1", some "a"⟩, ⟨"r2", some "b"⟩, ⟨"r3", none⟩],
   [⟨"c1", some "a"⟩],
   [⟨"m1", none⟩]⟩

/-! ## Theorems -/

theorem foldl_add_score (rows : List AnimalRow) (a : ℚ) :
    rows.foldl (fun acc r => acc + r.score) a = a + (rows.map (·.score)).sum := by
  induction rows generalizing a with
  | nil => simp
  | cons x xs ih => rw [List.foldl_cons, ih, List.map_cons, List.sum_cons]; ring

theorem foldl_add_setSum (sets : List SetPair) (a : ℚ) :
    sets.foldl (fun acc st => acc + (st.m10.getD []).sum + (st.m15.getD []).sum) a
      = a + (sets.map (fun st => (st.m10.getD []).sum + (st.m15.getD []).sum)).sum := by
  induction sets generalizing a with
  | nil => simp
  | cons x xs ih => rw [List.foldl_cons, ih, List.map_cons, List.sum_cons]; ring

theorem sum_eq_listSum (l : List ℚ) : sum l = l.sum := by
  unfold sum safeNumber
  simp

theorem safeNumber_eq (q : ℚ) : safeNumber q = q := rfl

/-- C5: `competitionTotal` dispatches on the bullseye format tag —
`4x10` sums `m10` (the spec's example giving 77), `2sets` sums every
value of both sets, `legacy` sums `m10` plus `m15`, an animal round sums
the per-distance scores, and any unknown or absent shape totals 0. -/
theorem competitionTotal_correct :
    (∀ c : CompRec, competitionTotal c = totalSpec c) ∧
      competitionTotal rec4x10 = 77 ∧ competitionTotal rec2sets = 100 := by
  have h24 : ("2sets" : String) ≠ "4x10" := by decide
  have hl4 : ("legacy" : String) ≠ "4x10" := by decide
  have hl2 : ("legacy" : String) ≠ "2sets" := by decide
  refine ⟨fun c => ?_,
    by norm_num [competitionTotal, rec4x10, sum_eq_listSum],
    by norm_num [competitionTotal, rec2sets, sum_eq_listSum, h24]⟩
  by_cases hb : c.round = "bullseye"
  · have ha : ¬c.round = "animal" := by rw [hb]; decide
    cases hcb : c.bullseye with
    | none => simp [competitionTotal, totalSpec, compAnimalPart, hb, ha, hcb]
    | some b =>
        by_cases h4 : b.format = "4x10"
        · simp [competitionTotal, totalSpec, compAnimalPart, hb, ha, hcb, h4, sum_eq_listSum]
        · by_cases h2 : b.format = "2sets"
          · simp [competitionTotal, totalSpec, compAnimalPart, hb, ha, hcb, h4, h2,
              sum_eq_listSum, foldl_add_setSum]
          · by_cases hl : b.format = "legacy"
            · simp [competitionTotal, totalSpec, compAnimalPart, hb, ha, hcb, h4, h2, hl,
                sum_eq_listSum]
            · simp [competitionTotal, totalSpec, compAnimalPart, hb, ha, hcb, h4, h2, hl]
  · by_cases ha : c.round = "animal"
    · cases hca : c.animal with
      | none => simp [competitionTotal, totalSpec, compAnimalPart, hb, ha, hca]
      | some rows =>
          simp [competitionTotal, totalSpec, compAnimalPart, hb, ha, hca, safeNumber_eq,
            foldl_add_score]
    · simp [competitionTotal, totalSpec, compAnimalPart, hb, ha]

/-- C3 counterexample: a record produced by the legacy migration carries
the defaulted category `'adult'`, and `competitionMax` returns the
category maximum 600 for it, not the claimed
`(len(m10)+len(m15))·50 = 100`. -/
theorem competitionMax_cex :
    competitionMax recLegacyMigrated = some 600 ∧
      competitionMax recLegacyMigrated
        ≠ some (((lenOr0 (some [5]) : ℚ) + (lenOr0 (some [7]) : ℚ)) * 50) := by
  have hba : ("bullseye" : String) ≠ "animal" := by decide
  have hac : ("adult" : String) ≠ "cub" := by decide
  have hab : ("adult" : String) ≠ "beginner" := by decide
  constructor
  · norm_num [competitionMax, recLegacyMigrated, catOrAdult, hba, hac, hab]
  · norm_num [competitionMax, recLegacyMigrated, catOrAdult, lenOr0, hba, hac, hab]

/-- C3 (amended): `competitionMax` returns `none` for every non-bullseye
round; for a bullseye record the category (defaulting to `'adult'` when
absent or empty) decides first — 200 for cub/beginner, 600 for
junior/senior/adult — and only for an unrecognized category does the
`'legacy'` format rule `(len(m10)+len(m15))·50` apply, anything else
giving `none`. -/
theorem competitionMax_amended : ∀ c : CompRec, competitionMax c = maxAmended c := by
  intro c
  by_cases ha : c.round = "animal"
  · have hb : ¬c.round = "bullseye" := by rw [ha]; decide
    simp [competitionMax, maxAmended, ha, hb]
  · by_cases hb : c.round = "bullseye"
    · by_cases h1 : catOrAdult c.category = "cub" ∨ catOrAdult c.category = "beginner"
      · have h1' : catOrAdult c.category ∈ ["cub", "beginner"] := by
          simpa using h1
        simp [competitionMax, maxAmended, ha, hb, h1, h1']
      · by_cases h2 : catOrAdult c.category = "junior" ∨ catOrAdult c.category = "senior" ∨
            catOrAdult c.category = "adult"
        · have h1' : catOrAdult c.category ∉ (["cub", "beginner"] : List String) := by
            simpa using h1
          have h2' : catOrAdult c.category ∈ ["junior", "senior", "adult"] := by
            simpa using h2
          simp [competitionMax, maxAmended, ha, hb, h1, h1', h2, h2']
        · have h1' : catOrAdult c.category ∉ (["cub", "beginner"] : List String) := by
            simpa using h1
          have h2' : catOrAdult c.category ∉ (["junior", "senior", "adult"] : List String) := by
            simpa using h2
          cases hcb : c.bullseye with
          | none => simp [competitionMax, maxAmended, ha, hb, h1, h1', h2, h2', hcb]
          | some b => simp [competitionMax, maxAmended, ha, hb, h1, h1', h2, h2', hcb]
    · simp [competitionMax, maxAmended, ha, hb]

/-- C6: an empty per-distance round list gives `null` (not 0) for that
distance's sum and average while the overall bullseye total still sums
both lists; on `bullseye:{m10:[], m15:[8,9]}` this yields
`bull10Sum = null`, `bull10Avg = null`, `bull15Avg = 8.5`,
`bullTotalSum = 17`; with the bullseye block absent every bullseye field
is `null`. -/
theorem practiceTotals_nulls :
    (∀ (s : PracticeSession) (b : PracBull), s.bullseye = some b → b.m10.getD [] = [] →
        (practiceTotals s).bull10Sum = none ∧ (practiceTotals s).bull10Avg = none) ∧
    (∀ (s : PracticeSession) (b : PracBull), s.bullseye = some b →
        (practiceTotals s).bullTotalSum
          = some (sum (b.m10.getD []) + sum (b.m15.getD []))) ∧
    (∀ s : PracticeSession, s.bullseye = none →
        (practiceTotals s).bull10Sum = none ∧ (practiceTotals s).bull15Sum = none ∧
        (practiceTotals s).bull10Avg = none ∧ (practiceTotals s).bull15Avg = none ∧
        (practiceTotals s).bullTotalSum = none) ∧
    practiceTotals sessC6 = ⟨none, some 17, none, some (8.5 : ℚ), some 17, none⟩ := by
  refine ⟨?_, ?_, ?_, by norm_num [practiceTotals, sessC6, sum, safeNumber_eq, meanOrNull]⟩
  · intro s b hb h10
    simp [practiceTotals, hb, h10]
  · intro s b hb
    simp [practiceTotals, hb]
  · intro s hb
    simp [practiceTotals, hb]

theorem practiceTotals_nulls_witness :
    (practiceTotals sessC6).bull10Sum = none ∧
      (practiceTotals sessC6).bullTotalSum
        = some (sum ((some ([] : List ℚ)).getD []) + sum ((some [(8 : ℚ), 9]).getD [])) := by
  exact ⟨(practiceTotals_nulls.1 sessC6 ⟨some [], some [8, 9]⟩ rfl (by decide)).1,
    practiceTotals_nulls.2.1 sessC6 ⟨some [], some [8, 9]⟩ rfl⟩

/-- C8: when the selected file's text does not parse as JSON, the import
handler leaves the storage slot and the in-memory document untouched and
reports a failure message (which differs from the success message). -/
theorem importFileChange_parse_failure :
    ∀ (pid now : String) (stored : Option (List Char)) (memDoc : JVal) (e : Unit),
      importFileChange pid now stored memDoc (.error e)
          = ⟨stored, memDoc, importFailMsg⟩ ∧ importFailMsg ≠ importOkMsg := by
  intro pid now stored memDoc e
  exact ⟨rfl, by decide⟩

/-- C9: deleting a profile removes exactly the practice sessions,
competition records and aim maps whose `profileId` equals the deleted
profile's id, reassigns `activeProfileId` to a remaining profile when the
deleted profile was active, and is refused with no state change when at
most one profile remains (or when the confirm dialog is declined). -/
theorem deleteProfileClick_correct :
    ∀ (st : AppState) (p : Profile) (ok : Bool),
      (st.profiles.length ≤ 1 → deleteProfileClick st p ok = st) ∧
      deleteProfileClick st p false = st ∧
      (2 ≤ st.profiles.length → (st.profiles.map (·.id)).Nodup →
        (deleteProfileClick st p true).practice
            = st.practice.filter (fun r => r.profileId != some p.id) ∧
        (deleteProfileClick st p true).competitions
            = st.competitions.filter (fun r => r.profileId != some p.id) ∧
        (deleteProfileClick st p true).aimMaps
            = st.aimMaps.filter (fun r => r.profileId != some p.id) ∧
        (deleteProfileClick st p true).profiles
            = st.profiles.filter (fun x => x.id != p.id) ∧
        (st.activeProfileId = some p.id →
          ∃ q, q ∈ (deleteProfileClick st p true).profiles ∧
            (deleteProfileClick st p true).activeProfileId = some q.id) ∧
        (st.activeProfileId ≠ some p.id →
          (deleteProfileClick st p true).activeProfileId = st.activeProfileId)) := by
  intro st p ok
  refine ⟨fun h => by simp [deleteProfileClick, h], ?_, fun h2 hnd => ?_⟩
  · by_cases h : st.profiles.length ≤ 1 <;> simp [deleteProfileClick, h]
  · have hgt : ¬st.profiles.length ≤ 1 := by omega
    have key : ∃ q ∈ st.profiles, q.id ≠ p.id := by
      obtain ⟨a, b, rest, hab⟩ : ∃ a b rest, st.profiles = a :: b :: rest := by
        cases hp : st.profiles with
        | nil => rw [hp] at h2; simp at h2
        | cons a tl =>
            cases tl with
            | nil => rw [hp] at h2; simp at h2
            | cons b rest => exact ⟨a, b, rest, rfl⟩
      by_cases hper : a.id = p.id
      · refine ⟨b, by simp [hab], fun hbe => ?_⟩
        rw [hab] at hnd
        simp [List.nodup_cons] at hnd
        exact hnd.1.1 (hper.trans hbe.symm)
      · exact ⟨a, by simp [hab], hper⟩
    have hne : st.profiles.filter (fun x => x.id != p.id) ≠ [] := by
      obtain ⟨q, hqmem, hqid⟩ := key
      intro hnil
      have hq : q ∈ st.profiles.filter (fun x => x.id != p.id) := by
        simp [List.mem_filter, hqmem, hqid]
      rw [hnil] at hq
      simp at hq
    obtain ⟨q0, l', hfl⟩ : ∃ q0 l', st.profiles.filter (fun x => x.id != p.id) = q0 :: l' := by
      cases hf : st.profiles.filter (fun x => x.id != p.id) with
      | nil => exact absurd hf hne
      | cons q0 l' => exact ⟨q0, l', rfl⟩
    refine ⟨by simp [deleteProfileClick, hgt], by simp [deleteProfileClick, hgt],
      by simp [deleteProfileClick, hgt], by simp [deleteProfileClick, hgt], ?_, ?_⟩
    · intro hact
      refine ⟨q0, ?_, ?_⟩
      · simp [deleteProfileClick, hgt, hfl]
      · simp [deleteProfileClick, hgt, hact, hfl]
    · intro hact
      simp [deleteProfileClick, hgt, hact]

theorem deleteProfileClick_correct_witness :
    2 ≤ stW.profiles.length ∧ (stW.profiles.map (·.id)).Nodup ∧
    (deleteProfileClick stW pA true).practice
        = stW.practice.filter (fun r => r.profileId != some pA.id) ∧
    (∃ q, q ∈ (deleteProfileClick stW pA true).profiles ∧
        (deleteProfileClick stW pA true).activeProfileId = some q.id) := by
  have h := (deleteProfileClick_correct stW pA true).2.2 (by decide) (by decide)
  exact ⟨by decide, by decide, h.1, h.2.2.2.2.1 (by decide)⟩

/-- C10: the delete handler filters each collection by strict equality of
`profileId` with the deleted profile's id, so a record whose `profileId`
is missing or null survives every profile deletion — even when the
deleted profile is the active one, to whose display view
(`practiceForActive`) such a record belongs. -/
theorem deleteProfileClick_orphans :
    ∀ (st : AppState) (p : Profile) (ok : Bool) (r : OwnedRec), r.profileId = none →
      (r ∈ st.practice → r ∈ (deleteProfileClick st p ok).practice) ∧
      (r ∈ st.competitions → r ∈ (deleteProfileClick st p ok).competitions) ∧
      (r ∈ st.aimMaps → r ∈ (deleteProfileClick st p ok).aimMaps) ∧
      (r ∈ st.practice → r ∈ practiceForActive st) := by
  intro st p ok r hr
  have hkeep : (r.profileId != some p.id) = true := by simp [hr]
  have hmem : ∀ l : List OwnedRec, r ∈ l → r ∈ l.filter (fun x => x.profileId != some p.id) := by
    intro l hl
    simp [List.mem_filter, hl, hkeep]
  refine ⟨?_, ?_, ?_, ?_⟩
  · intro hp
    by_cases h1 : st.profiles.length ≤ 1
    · simpa [deleteProfileClick, h1] using hp
    · cases ok with
      | false => simpa [deleteProfileClick, h1] using hp
      | true => simpa [deleteProfileClick, h1] using hmem _ hp
  · intro hp
    by_cases h1 : st.profiles.length ≤ 1
    · simpa [deleteProfileClick, h1] using hp
    · cases ok with
      | false => simpa [deleteProfileClick, h1] using hp
      | true => simpa [deleteProfileClick, h1] using hmem _ hp
  · intro hp
    by_cases h1 : st.profiles.length ≤ 1
    · simpa [deleteProfileClick, h1] using hp
    · cases ok with
      | false => simpa [deleteProfileClick, h1] using hp
      | true => simpa [deleteProfileClick, h1] using hmem _ hp
  · intro hp
    simp [practiceForActive, List.mem_filter, hp, effectiveOwner, hr]

theorem stripWS_nil : stripWS [] = [] := rfl


theorem stripWS_cons_safe (c : Char) (B : List Char) (h1 : c ≠ dqChar) (h2 : c ≠ spChar)
    (h3 : c ≠ nlChar) : stripWS (c :: B) = c :: stripWS B := by
  conv_lhs => rw [stripWS]
  rw [if_neg h1, if_neg (by simp [h2, h3])]

theorem stripWS_null_chars (B : List Char) :
    stripWS ('n' :: 'u' :: 'l' :: 'l' :: B) = 'n' :: 'u' :: 'l' :: 'l' :: stripWS B := by
  rw [stripWS_cons_safe 'n' _ (by decide) (by decide) (by decide),
    stripWS_cons_safe 'u' _ (by decide) (by decide) (by decide),
    stripWS_cons_safe 'l' _ (by decide) (by decide) (by decide),
    stripWS_cons_safe 'l' _ (by decide) (by decide) (by decide)]

theorem stripWS_sp (B : List Char) : stripWS (spChar :: B) = stripWS B := by
  conv_lhs => rw [stripWS]
  rw [if_neg (by decide), if_pos (by simp)]

theorem stripWS_nl (B : List Char) : stripWS (nlChar :: B) = stripWS B := by
  conv_lhs => rw [stripWS]
  rw [if_neg (by decide), if_pos (by simp)]

theorem stripWS_replicate_sp (k : Nat) (B : List Char) :
    stripWS (List.replicate k spChar ++ B) = stripWS B := by
  induction k with
  | zero => simp
  | succ m ih => rw [List.replicate_succ, List.cons_append, stripWS_sp, ih]

theorem stripWS_ind (d : Nat) (B : List Char) : stripWS (ind d ++ B) = stripWS B :=
  stripWS_replicate_sp (2 * d) B

theorem stripWS_append_safe (A B : List Char)
    (h : ∀ c ∈ A, c ≠ dqChar ∧ c ≠ spChar ∧ c ≠ nlChar) :
    stripWS (A ++ B) = A ++ stripWS B := by
  induction A with
  | nil => simp
  | cons c cs ih =>
      have hc := h c (by simp)
      rw [List.cons_append, stripWS_cons_safe c _ hc.1 hc.2.1 hc.2.2, List.cons_append,
        ih fun x hx => h x (by simp [hx])]

theorem stripStr_pair (x : Char) (B : List Char) :
    stripStr (bsChar :: x :: B) = bsChar :: x :: stripStr B := by
  conv_lhs => rw [stripStr]
  rw [if_pos rfl]

theorem stripStr_plain (c : Char) (B : List Char) (h1 : c ≠ bsChar) (h2 : c ≠ dqChar) :
    stripStr (c :: B) = c :: stripStr B := by
  cases B with
  | nil => rfl
  | cons c2 rest =>
      conv_lhs => rw [stripStr]
      rw [if_neg h1, if_neg h2]

theorem stripStr_dq (B : List Char) : stripStr (dqChar :: B) = dqChar :: stripWS B := by
  cases B with
  | nil => rfl
  | cons c2 rest =>
      conv_lhs => rw [stripStr]
      rw [if_neg (by decide), if_pos rfl]

theorem stripWS_dq (B : List Char) : stripWS (dqChar :: B) = dqChar :: stripStr B := by
  conv_lhs => rw [stripWS]
  rw [if_pos rfl]

theorem stripStr_escape (s : List Char) (B : List Char) :
    stripStr (escapeStr s ++ dqChar :: B) = escapeStr s ++ dqChar :: stripWS B := by
  induction s with
  | nil => simp [escapeStr, stripStr_dq]
  | cons c cs ih =>
      have hesc : escapeStr (c :: cs) = escapeChar c ++ escapeStr cs := by
        simp [escapeStr]
      rw [hesc, List.append_assoc, List.append_assoc]
      unfold escapeChar
      by_cases h1 : c = dqChar
      · rw [if_pos h1]
        simpa [stripStr_pair] using ih
      · rw [if_neg h1]
        by_cases h2 : c = bsChar
        · rw [if_pos h2]
          simpa [stripStr_pair] using ih
        · rw [if_neg h2]
          by_cases h3 : c = nlChar
          · rw [if_pos h3]
            simpa [stripStr_pair] using ih
          · rw [if_neg h3]
            by_cases h4 : c = Char.ofNat 9
            · rw [if_pos h4]
              simpa [stripStr_pair] using ih
            · rw [if_neg h4]
              by_cases h5 : c = Char.ofNat 13
              · rw [if_pos h5]
                simpa [stripStr_pair] using ih
              · rw [if_neg h5]
                simpa [stripStr_plain c _ h2 h1] using ih

theorem stripWS_quoteStr (s : String) (B : List Char) :
    stripWS (quoteStr s ++ B) = quoteStr s ++ stripWS B := by
  simp only [quoteStr, List.cons_append, List.append_assoc, List.singleton_append,
    List.nil_append]
  rw [stripWS_dq, stripStr_escape]

theorem digitChar_safe (d : Nat) (hd : d < 10) :
    digitChar d ≠ dqChar ∧ digitChar d ≠ spChar ∧ digitChar d ≠ nlChar := by
  interval_cases d <;> exact ⟨by decide, by decide, by decide⟩

theorem natChars_safe (n : Nat) :
    ∀ c ∈ natChars n, c ≠ dqChar ∧ c ≠ spChar ∧ c ≠ nlChar := by
  induction n using Nat.strong_induction_on with
  | _ n ih =>
      intro c hc
      rw [natChars] at hc
      by_cases h : n < 10
      · rw [if_pos h] at hc
        simp only [List.mem_singleton] at hc
        exact hc ▸ digitChar_safe n h
      · rw [if_neg h] at hc
        rcases List.mem_append.mp hc with h1 | h1
        · exact ih (n / 10) (Nat.div_lt_self (by omega) (by omega)) c h1
        · simp only [List.mem_singleton] at h1
          exact h1 ▸ digitChar_safe (n % 10) (Nat.mod_lt _ (by omega))

theorem intChars_safe (i : Int) :
    ∀ c ∈ intChars i, c ≠ dqChar ∧ c ≠ spChar ∧ c ≠ nlChar := by
  intro c hc
  unfold intChars at hc
  by_cases h : i < 0
  · rw [if_pos h] at hc
    rcases List.mem_cons.mp hc with h1 | h1
    · exact h1 ▸ ⟨by decide, by decide, by decide⟩
    · exact natChars_safe _ c h1
  · rw [if_neg h] at hc
    exact natChars_safe _ c hc

theorem stripWS_intChars (i : Int) (B : List Char) :
    stripWS (intChars i ++ B) = intChars i ++ stripWS B :=
  stripWS_append_safe _ _ (intChars_safe i)

theorem stripWS_null_lit (B : List Char) :
    stripWS ("null".data ++ B) = "null".data ++ stripWS B :=
  stripWS_append_safe _ _ (by decide)

theorem stripWS_true_lit (B : List Char) :
    stripWS ("true".data ++ B) = "true".data ++ stripWS B :=
  stripWS_append_safe _ _ (by decide)

theorem stripWS_false_lit (B : List Char) :
    stripWS ("false".data ++ B) = "false".data ++ stripWS B :=
  stripWS_append_safe _ _ (by decide)

theorem stripWS_lk (B : List Char) : stripWS (lkChar :: B) = lkChar :: stripWS B :=
  stripWS_cons_safe _ _ (by decide) (by decide) (by decide)

theorem stripWS_rk (B : List Char) : stripWS (rkChar :: B) = rkChar :: stripWS B :=
  stripWS_cons_safe _ _ (by decide) (by decide) (by decide)

theorem stripWS_lb (B : List Char) : stripWS (lbChar :: B) = lbChar :: stripWS B :=
  stripWS_cons_safe _ _ (by decide) (by decide) (by decide)

theorem stripWS_rb (B : List Char) : stripWS (rbChar :: B) = rbChar :: stripWS B :=
  stripWS_cons_safe _ _ (by decide) (by decide) (by decide)

theorem stripWS_cm (B : List Char) : stripWS (cmChar :: B) = cmChar :: stripWS B :=
  stripWS_cons_safe _ _ (by decide) (by decide) (by decide)

theorem stripWS_cl (B : List Char) : stripWS (clChar :: B) = clChar :: stripWS B :=
  stripWS_cons_safe _ _ (by decide) (by decide) (by decide)

theorem compactObj_eq_nil (fs : List (String × JVal)) (h : hasKept fs = false) :
    compactObj fs = [] := by
  induction fs with
  | nil => rfl
  | cons kv rest ih =>
      obtain ⟨k, v⟩ := kv
      by_cases hv : isUndef v
      · have hrest : hasKept rest = false := by
          simpa [hasKept, hv] using h
        unfold compactObj
        rw [if_pos hv]
        exact ih hrest
      · exfalso
        simp [hasKept, hv] at h

theorem strip_pretty (d : Nat) (j : JVal) :
    ∀ B, stripWS (prettyJ d j ++ B) = compactJ j ++ stripWS B := by
  refine prettyJ.induct
    (fun d j => ∀ B, stripWS (prettyJ d j ++ B) = compactJ j ++ stripWS B)
    (fun d fs => ∀ B, stripWS (prettyObj d fs ++ B) = compactObj fs ++ stripWS B)
    (fun d xs => ∀ B, stripWS (prettyArr d xs ++ B) = compactArr xs ++ stripWS B)
    ?_ ?_ ?_ ?_ ?_ ?_ ?_ ?_ ?_ ?_ ?_ ?_ ?_ ?_ ?_ ?_ d j
  · intro x B
    simp [prettyJ, compactJ]
  · intro x B
    simp only [prettyJ, compactJ]
    exact stripWS_null_lit B
  · intro x B
    simp only [prettyJ, compactJ, if_pos]
    exact stripWS_true_lit B
  · intro x b hb B
    have hb' : b = false := by simpa using hb
    subst hb'
    simp only [prettyJ, compactJ, Bool.false_eq_true, if_false]
    exact stripWS_false_lit B
  · intro x n B
    simp only [prettyJ, compactJ]
    exact stripWS_intChars n B
  · intro x s B
    simp only [prettyJ, compactJ]
    exact stripWS_quoteStr s B
  · intro x B
    simp only [prettyJ, compactJ, compactArr, List.cons_append, List.nil_append,
      List.append_assoc, List.singleton_append]
    rw [stripWS_lk, stripWS_rk]
  · intro d x xs ih B
    simp only [prettyJ, compactJ, List.cons_append, List.nil_append, List.append_assoc,
      List.singleton_append]
    rw [stripWS_lk, stripWS_nl, ih, stripWS_nl, stripWS_ind, stripWS_rk]
  · intro d fs hk ih B
    simp only [prettyJ, compactJ, hk, if_pos, List.cons_append, List.nil_append,
      List.append_assoc, List.singleton_append]
    rw [stripWS_lb, stripWS_nl, ih, stripWS_nl, stripWS_ind, stripWS_rb]
  · intro d fs hk B
    have hk' : hasKept fs = false := by simpa using hk
    simp only [prettyJ, compactJ, hk', Bool.false_eq_true, if_false,
      compactObj_eq_nil fs hk', List.cons_append, List.nil_append, List.append_assoc,
      List.singleton_append]
    rw [stripWS_lb, stripWS_rb]
  · intro x B
    simp [prettyArr, compactArr]
  · intro d x ih B
    simp only [prettyArr, compactArr]
    rw [List.append_assoc, stripWS_ind]
    by_cases hu : isUndef x
    · simp only [hu, if_pos]
      exact stripWS_null_lit B
    · simp only [hu, Bool.false_eq_true, if_false]
      exact ih B
  · intro d x y rest ih1 ih3 B
    by_cases hu : isUndef x
    · simp only [prettyArr, compactArr, hu, if_pos, List.cons_append, List.nil_append,
        List.append_assoc, List.singleton_append]
      rw [stripWS_ind, stripWS_null_chars, stripWS_cm, stripWS_nl, ih3]
    · simp only [prettyArr, compactArr, hu, Bool.false_eq_true, if_false,
        List.cons_append, List.nil_append, List.append_assoc, List.singleton_append]
      rw [stripWS_ind, ih1, stripWS_cm, stripWS_nl, ih3]
  · intro x B
    simp [prettyObj, compactObj]
  · intro d k v rest hu ih B
    simp only [prettyObj, compactObj, hu, if_pos]
    exact ih B
  · intro d k v rest hu ih1 ih2 B
    have hu' : isUndef v = false := by simpa using hu
    by_cases hk : hasKept rest
    · simp only [prettyObj, compactObj, hu', Bool.false_eq_true, if_false, hk, if_pos,
        List.cons_append, List.nil_append, List.append_assoc, List.singleton_append]
      rw [stripWS_ind, stripWS_quoteStr, stripWS_cl, stripWS_sp, ih1, stripWS_cm,
        stripWS_nl, ih2]
    · simp only [prettyObj, compactObj, hu', Bool.false_eq_true, if_false, hk,
        List.cons_append, List.nil_append, List.append_assoc, List.singleton_append,
        List.append_nil]
      rw [stripWS_ind, stripWS_quoteStr, stripWS_cl, stripWS_sp, ih1]

/-- C1 counterexample: on a default document the export text (pretty,
2-space indent) differs byte-wise from the text `saveState` persists
(compact). -/
theorem exportText_ne_saveStateText_cex :
    exportText (defaultSt "p1" "t1") ≠ saveStateText (defaultSt "p1" "t1") := by
  decide

/-- C1 (amended): the Export action serializes exactly the document that
`saveState` persists, pretty-printed with a 2-space indent instead of
compactly; for every document state the two texts agree after deleting
the whitespace that sits outside JSON string literals, but they are not
byte-identical. -/
theorem exportText_strip_eq_save : ∀ st : NormSt, stripWS (exportText st) = saveStateText st := by
  intro st
  unfold exportText saveStateText
  have h := strip_pretty 0 (toJVal st) []
  simpa [stripWS_nil] using h

theorem getField_profileObj (p n : String) : getField (profileObj p n) "id" = .str p := rfl

theorem afterProfiles_profiles_ne_nil (u : Uids) (m s : List (String × JVal))
    (p0 c0 a0 : List JVal) (profiles : List JVal) (a1 : JVal) (hprof : profiles ≠ []) :
    (afterProfiles u m s p0 c0 a0 profiles a1).profiles ≠ [] := by
  unfold afterProfiles
  by_cases ht : truthy a1
  · simp [ht, hprof]
  · cases profiles with
    | nil => exact absurd rfl hprof
    | cons h t =>
        by_cases hnl : nullish h
        · simp [ht, hnl, defaultSt]
        · simp [ht, hnl]

theorem activeResolves_defaultSt (p n : String) : activeResolves (defaultSt p n) :=
  ⟨profileObj p n, by simp [defaultSt], by simp [defaultSt, getField_profileObj]⟩

theorem afterProfiles_resolves_of_falsy (u : Uids) (m s : List (String × JVal))
    (p0 c0 a0 : List JVal) (profiles : List JVal) (a1 : JVal) (hprof : profiles ≠ [])
    (hfa : truthy a1 = false) :
    activeResolves (afterProfiles u m s p0 c0 a0 profiles a1) := by
  unfold afterProfiles
  cases profiles with
  | nil => exact absurd rfl hprof
  | cons h t =>
      by_cases hnl : nullish h
      · simp only [hfa, Bool.false_eq_true, if_false, hnl, if_true]
        exact activeResolves_defaultSt u.cPid u.cNow
      · simp only [hfa, Bool.false_eq_true, if_false, hnl, Bool.false_eq_true, if_false]
        exact ⟨h, by simp, rfl⟩

/-- C2 counterexample: a stored document with one profile of id `"a"` and
a non-empty `activeProfileId` `"zzz"` that matches no profile comes out of
`loadState` with the dangling `"zzz"` preserved — `activeProfileId` does
not reference a member of `profiles`. -/
theorem loadState_dangling_cex :
    (loadStateNorm uidsA danglingInput).profiles = [.obj [("id", .str "a")]] ∧
    (loadStateNorm uidsA danglingInput).activeProfileId = .str "zzz" ∧
    ¬activeResolves (loadStateNorm uidsA danglingInput) := by
  refine ⟨rfl, rfl, ?_⟩
  rintro ⟨p, hp, he⟩
  have hps : (loadStateNorm uidsA danglingInput).profiles = [.obj [("id", .str "a")]] := rfl
  rw [hps] at hp
  simp only [List.mem_singleton] at hp
  subst hp
  have ha : (loadStateNorm uidsA danglingInput).activeProfileId = .str "zzz" := rfl
  rw [ha] at he
  have : ("zzz" : String) = "a" := by
    have hgf : getField (.obj [("id", .str "a")]) "id" = .str "a" := rfl
    rw [hgf] at he
    exact JVal.str.inj he
  exact absurd this (by decide)

/-- C2 (amended): after `loadState` the profiles list is never empty, and
`activeProfileId` equals the `id` field of a member whenever the raw
input was nullish, the merged `profiles` value was not a non-empty array
(profile synthesis), or the merged `activeProfileId` was falsy (the
repair branch, with a nullish first profile recovering to a fresh default
document); a truthy stored `activeProfileId` — including a non-empty
string matching no profile — is preserved verbatim instead of being
repaired. -/
theorem loadState_profile_invariant :
    ∀ (u : Uids) (d : JVal),
      (loadStateNorm u d).profiles ≠ [] ∧
      ((nullish d = true ∨ nonemptyArr? (mergedProfilesVal u d) = none ∨
          truthy (mergedActiveVal u d) = false) →
        activeResolves (loadStateNorm u d)) := by
  intro u d
  by_cases hd : nullish d
  · constructor
    · simp [loadStateNorm, hd, defaultSt]
    · intro _
      simp only [loadStateNorm, hd, if_true]
      exact activeResolves_defaultSt u.cPid u.cNow
  · have hd' : nullish d = false := by simpa using hd
    cases hpe : nonemptyArr? ((lookupField (mergedOf u d) "profiles").getD .undef) with
    | none =>
        constructor
        · simp only [loadStateNorm, hd', Bool.false_eq_true, if_false, hpe]
          exact afterProfiles_profiles_ne_nil _ _ _ _ _ _ _ _ (by simp)
        · intro _
          simp only [loadStateNorm, hd', Bool.false_eq_true, if_false, hpe]
          by_cases ht : truthy (JVal.str u.sPid)
          · unfold afterProfiles
            simp only [ht, if_true]
            exact ⟨profileObj u.sPid u.sNow, by simp, by simp [getField_profileObj]⟩
          · exact afterProfiles_resolves_of_falsy _ _ _ _ _ _ _ _ (by simp)
              (by simpa using ht)
    | some xs =>
        have hxne : xs ≠ [] := by
          cases hv : ((lookupField (mergedOf u d) "profiles").getD .undef) with
          | arr l =>
              rw [hv] at hpe
              cases l with
              | nil => simp [nonemptyArr?] at hpe
              | cons a b =>
                  simp only [nonemptyArr?, Option.some.injEq] at hpe
                  rw [← hpe]
                  simp
          | _ => rw [hv] at hpe; simp [nonemptyArr?] at hpe
        constructor
        · simp only [loadStateNorm, hd', Bool.false_eq_true, if_false, hpe]
          exact afterProfiles_profiles_ne_nil _ _ _ _ _ _ _ _ hxne
        · intro hcond
          rcases hcond with h | h | h
          · rw [h] at hd'
            cases hd'
          · rw [mergedProfilesVal] at h
            rw [h] at hpe
            cases hpe
          · simp only [loadStateNorm, hd', Bool.false_eq_true, if_false, hpe]
            exact afterProfiles_resolves_of_falsy _ _ _ _ _ _ _ _ hxne
              (by rw [mergedActiveVal] at h; exact h)

theorem loadState_profile_invariant_witness :
    (loadStateNorm uidsA JVal.null).profiles ≠ [] ∧
      activeResolves (loadStateNorm uidsA JVal.null) :=
  ⟨(loadState_profile_invariant uidsA .null).1,
   (loadState_profile_invariant uidsA .null).2 (Or.inl rfl)⟩

theorem listRange_map_sum (f : ℕ → ℚ) (n : ℕ) :
    ((List.range n).map f).sum = ∑ i ∈ Finset.range n, f i := by
  induction n with
  | zero => simp
  | succ m ih =>
      rw [List.range_succ, List.map_append, List.sum_append, Finset.sum_range_succ, ih]
      simp

theorem sum_range_cast (n : ℕ) : ∑ i ∈ Finset.range n, (i : ℚ) = n * (n - 1) / 2 := by
  induction n with
  | zero => simp
  | succ m ih =>
      rw [Finset.sum_range_succ, ih]
      push_cast
      ring

theorem range_map_getD (ys : List ℚ) :
    (List.range ys.length).map (fun (i : ℕ) => ys.getD i 0) = ys := by
  induction ys with
  | nil => simp
  | cons x t ih =>
      rw [List.length_cons, List.range_succ_eq_map, List.map_cons, List.map_map]
      simp only [Function.comp_def, List.getD_cons_succ, List.getD_cons_zero]
      rw [ih]

theorem sum_range_getD (ys : List ℚ) :
    ∑ i ∈ Finset.range ys.length, ys.getD i 0 = ys.sum := by
  rw [← listRange_map_sum, range_map_getD]

theorem mean_range_cast (n : ℕ) (hn : n ≠ 0) :
    mean ((List.range n).map (fun (i : ℕ) => (i : ℚ))) = ((n : ℚ) - 1) / 2 := by
  unfold mean
  have hl : ((List.range n).map (fun (i : ℕ) => (i : ℚ))).length = n := by simp
  rw [hl, if_neg hn, listRange_map_sum, sum_range_cast]
  have hq : (n : ℚ) ≠ 0 := Nat.cast_ne_zero.mpr hn
  field_simp
  ring

theorem mean_eq_sum_div (l : List ℚ) (h : l.length ≠ 0) :
    mean l = l.sum / l.length := by
  unfold mean
  rw [if_neg h]

theorem centered_den_pos (n : ℕ) (hn : 2 ≤ n) :
    0 < ∑ i ∈ Finset.range n, ((i : ℚ) - ((n : ℚ) - 1) / 2) * ((i : ℚ) - ((n : ℚ) - 1) / 2) := by
  have hmx : (1 : ℚ) / 2 ≤ ((n : ℚ) - 1) / 2 := by
    have : (2 : ℚ) ≤ (n : ℚ) := by exact_mod_cast hn
    linarith
  have h0 : (0 : ℕ) ∈ Finset.range n := by
    simp
    omega
  have hterm : ∀ i ∈ Finset.range n,
      0 ≤ ((i : ℚ) - ((n : ℚ) - 1) / 2) * ((i : ℚ) - ((n : ℚ) - 1) / 2) :=
    fun i _ => mul_self_nonneg _
  have hle := Finset.single_le_sum hterm h0
  have h0v : (0 : ℚ) < (((0 : ℕ) : ℚ) - ((n : ℚ) - 1) / 2) * (((0 : ℕ) : ℚ) - ((n : ℚ) - 1) / 2) := by
    push_cast
    nlinarith
  linarith

/-- C7: `linearSlope` returns `null` exactly on sequences shorter than 2;
on longer sequences the index variance is strictly positive, the null
denominator branch is unreachable, and the result is the textbook
ordinary-least-squares slope against index positions `0..n-1`; the spec's
examples `linearSlope([1,2,3,4]) = 1` and `linearSlope([5]) = null`
hold. -/
theorem linearSlope_correct :
    (∀ ys : List ℚ,
        (linearSlope ys = none ↔ ys.length < 2) ∧
        (2 ≤ ys.length → linearSlope ys = some (olsSlope ys))) ∧
      linearSlope [1, 2, 3, 4] = some 1 ∧ linearSlope [(5 : ℚ)] = none := by
  have main : ∀ ys : List ℚ,
      (linearSlope ys = none ↔ ys.length < 2) ∧
      (2 ≤ ys.length → linearSlope ys = some (olsSlope ys)) := by
    intro ys
    by_cases hlen : ys.length < 2
    · constructor
      · simp [linearSlope, hlen]
      · intro h
        omega
    · have hn : 2 ≤ ys.length := by omega
      have hn0 : ys.length ≠ 0 := by omega
      have hnq : (ys.length : ℚ) ≠ 0 := Nat.cast_ne_zero.mpr hn0
      -- abbreviations
      set n := ys.length with hndef
      set Sx : ℚ := ∑ i ∈ Finset.range n, (i : ℚ) with hSx
      set Sxx : ℚ := ∑ i ∈ Finset.range n, (i : ℚ) * (i : ℚ) with hSxx
      set Sxy : ℚ := ∑ i ∈ Finset.range n, (i : ℚ) * ys.getD i 0 with hSxy
      set Sy : ℚ := ys.sum with hSy
      have hmx := mean_range_cast n hn0
      have hmy : mean ys = Sy / n := mean_eq_sum_div ys hn0
      have hden :
          (((List.range n).map
              (fun (i : ℕ) => ((i : ℚ) - mean ((List.range n).map (fun (j : ℕ) => (j : ℚ)))) *
                ((i : ℚ) - mean ((List.range n).map (fun (j : ℕ) => (j : ℚ)))))).sum)
            = ∑ i ∈ Finset.range n, ((i : ℚ) - ((n : ℚ) - 1) / 2) * ((i : ℚ) - ((n : ℚ) - 1) / 2) := by
        rw [listRange_map_sum]
        exact Finset.sum_congr rfl fun i _ => by rw [hmx]
      have hdpos := centered_den_pos n hn
      -- expand the centered sums
      have hden2 :
          ∑ i ∈ Finset.range n, ((i : ℚ) - ((n : ℚ) - 1) / 2) * ((i : ℚ) - ((n : ℚ) - 1) / 2)
            = Sxx - Sx * Sx / n := by
        have hexp : ∀ i ∈ Finset.range n,
            ((i : ℚ) - ((n : ℚ) - 1) / 2) * ((i : ℚ) - ((n : ℚ) - 1) / 2)
              = (i : ℚ) * (i : ℚ) - ((n : ℚ) - 1) * (i : ℚ) + (((n : ℚ) - 1) / 2) * (((n : ℚ) - 1) / 2) := by
          intro i _
          ring
        rw [Finset.sum_congr rfl hexp]
        rw [Finset.sum_add_distrib, Finset.sum_sub_distrib, ← Finset.mul_sum,
          Finset.sum_const, Finset.card_range, ← hSxx, ← hSx]
        rw [hSx, sum_range_cast]
        simp only [nsmul_eq_mul]
        field_simp
        ring
      have hnum2 :
          (((List.range n).map
              (fun (i : ℕ) => ((i : ℚ) - mean ((List.range n).map (fun (j : ℕ) => (j : ℚ)))) *
                (ys.getD i 0 - mean ys))).sum)
            = Sxy - Sx * Sy / n := by
        rw [listRange_map_sum]
        have hexp : ∀ i ∈ Finset.range n,
            ((i : ℚ) - mean ((List.range n).map (fun (j : ℕ) => (j : ℚ)))) * (ys.getD i 0 - mean ys)
              = (i : ℚ) * ys.getD i 0 - (((n : ℚ) - 1) / 2) * ys.getD i 0
                  - (Sy / n) * (i : ℚ) + (((n : ℚ) - 1) / 2) * (Sy / n) := by
          intro i _
          rw [hmx, hmy]
          ring
        rw [Finset.sum_congr rfl hexp]
        rw [Finset.sum_add_distrib, Finset.sum_sub_distrib, Finset.sum_sub_distrib,
          ← Finset.mul_sum, ← Finset.mul_sum, Finset.sum_const, Finset.card_range]
        rw [← hSxy, ← hSx]
        have hgetD : ∑ i ∈ Finset.range n, ys.getD i 0 = Sy := by
          rw [hndef, hSy]
          exact sum_range_getD ys
        rw [hgetD, hSx, sum_range_cast]
        simp only [nsmul_eq_mul]
        field_simp
        ring
      constructor
      · constructor
        · intro hnone
          exfalso
          revert hnone
          simp only [linearSlope]
          rw [if_neg hlen]
          rw [hnum2, hden, hden2]
          rw [hden2] at hdpos
          rw [if_neg (ne_of_gt hdpos)]
          simp
        · intro h
          omega
      · intro _
        simp only [linearSlope]
        rw [if_neg hlen]
        rw [hnum2, hden, hden2]
        rw [hden2] at hdpos
        rw [if_neg (ne_of_gt hdpos)]
        -- identify with the uncentered spec formula
        simp only [olsSlope]
        rw [listRange_map_sum, listRange_map_sum, listRange_map_sum, ← hndef, ← hSx, ← hSxy,
          ← hSxx, ← hSy]
        have hd1 : (n : ℚ) * Sxx - Sx * Sx = (n : ℚ) * (Sxx - Sx * Sx / n) := by
          field_simp
          ring
        have hd2 : (n : ℚ) * Sxy - Sx * Sy = (n : ℚ) * (Sxy - Sx * Sy / n) := by
          field_simp
          ring
        rw [hd1, hd2, mul_div_mul_left _ _ hnq]
  refine ⟨main, ?_, ?_⟩
  · have h := (main [1, 2, 3, 4]).2 (by norm_num)
    rw [h]
    norm_num [olsSlope, List.range_succ]
  · norm_num [linearSlope]

theorem linearSlope_correct_witness :
    2 ≤ ([1, 2, 3, 4] : List ℚ).length ∧
      linearSlope [1, 2, 3, 4] = some (olsSlope [1, 2, 3, 4]) :=
  ⟨by norm_num, (linearSlope_correct.1 [1, 2, 3, 4]).2 (by norm_num)⟩

theorem deleteProfileClick_orphans_witness :
    (⟨"r3", none⟩ : OwnedRec) ∈ (deleteProfileClick stW pA true).practice ∧
      (⟨"r3", none⟩ : OwnedRec) ∈ practiceForActive stW := by
  have h := deleteProfileClick_orphans stW pA true ⟨"r3", none⟩ rfl
  exact ⟨h.1 (by decide), h.2.2.2 (by decide)⟩

/-! ### Association-list lemmas for the normalization idempotence proof -/

theorem lookupField_setField_self (l : List (String × JVal)) (k : String) (v : JVal) :
    lookupField (setField l k v) k = some v := by
  induction l with
  | nil => simp [setField, lookupField]
  | cons kv rest ih =>
      obtain ⟨k', w⟩ := kv
      by_cases h : k' = k
      · simp [setField, lookupField, h]
      · simp [setField, lookupField, h, ih]

theorem lookupField_setField_ne (l : List (String × JVal)) (k k' : String) (v : JVal)
    (h : k' ≠ k) : lookupField (setField l k v) k' = lookupField l k' := by
  induction l with
  | nil =>
      simp only [setField, lookupField]
      rw [if_neg (Ne.symm h)]
  | cons kv rest ih =>
      obtain ⟨k0, w⟩ := kv
      by_cases h0 : k0 = k
      · subst h0
        simp only [setField, if_pos rfl, lookupField]
        rw [if_neg (show ¬k0 = k' from fun he => h he.symm),
          if_neg (show ¬k0 = k' from fun he => h he.symm)]
      · simp only [setField, if_neg h0, lookupField]
        by_cases h1 : k0 = k'
        · rw [if_pos h1, if_pos h1]
        · rw [if_neg h1, if_neg h1]
          exact ih

theorem setField_setField_same (l : List (String × JVal)) (k : String) (v v' : JVal) :
    setField (setField l k v) k v' = setField l k v' := by
  induction l with
  | nil => simp [setField]
  | cons kv rest ih =>
      obtain ⟨k0, w⟩ := kv
      by_cases h : k0 = k
      · simp [setField, h]
      · simp [setField, h, ih]

theorem setField_lookup_self (l : List (String × JVal)) (k : String) (v : JVal)
    (h : lookupField l k = some v) : setField l k v = l := by
  induction l with
  | nil => simp [lookupField] at h
  | cons kv rest ih =>
      obtain ⟨k0, w⟩ := kv
      by_cases h0 : k0 = k
      · simp only [lookupField, h0, if_pos] at h
        have hw : v = w := (Option.some.inj h).symm
        simp [setField, h0, hw]
      · simp only [lookupField, h0, if_neg, ite_false] at h
        simp [setField, h0, ih h]

theorem setField_not_mem (l : List (String × JVal)) (k : String) (v : JVal)
    (h : k ∉ keysOf l) : setField l k v = l ++ [(k, v)] := by
  induction l with
  | nil => rfl
  | cons kv rest ih =>
      obtain ⟨k0, w⟩ := kv
      simp only [keysOf, List.map_cons, List.mem_cons] at h
      push_neg at h
      have h1 : ¬k0 = k := fun he => h.1 (he.symm ▸ rfl)
      simp only [setField, if_neg h1, List.cons_append, List.cons.injEq, true_and]
      exact ih (by simp [keysOf, h.2])

theorem keysOf_setField (l : List (String × JVal)) (k : String) (v : JVal) :
    keysOf (setField l k v) = if k ∈ keysOf l then keysOf l else keysOf l ++ [k] := by
  induction l with
  | nil => simp [setField, keysOf]
  | cons kv rest ih =>
      obtain ⟨k0, w⟩ := kv
      by_cases h : k0 = k
      · subst h
        simp [setField, keysOf]
      · have hk : k ≠ k0 := fun he => h he.symm
        simp only [setField, if_neg h, keysOf, List.map_cons] at ih ⊢
        by_cases h2 : k ∈ List.map Prod.fst rest
        · rw [ih, if_pos h2, if_pos (List.mem_cons_of_mem _ h2)]
        · rw [ih, if_neg h2, if_neg (by simp [hk, h2]), List.cons_append]

theorem keysOf_setField_nodup (l : List (String × JVal)) (k : String) (v : JVal)
    (h : (keysOf l).Nodup) : (keysOf (setField l k v)).Nodup := by
  rw [keysOf_setField]
  by_cases hm : k ∈ keysOf l
  · simp [hm, h]
  · simp only [hm, if_false]
    simp [List.nodup_append, h, hm]

theorem mergeFields_keys_nodup (src base : List (String × JVal))
    (h : (keysOf base).Nodup) : (keysOf (mergeFields base src)).Nodup := by
  induction src generalizing base with
  | nil => exact h
  | cons kv rest ih =>
      exact ih (setField base kv.1 kv.2) (keysOf_setField_nodup base kv.1 kv.2 h)

theorem mergeFields_fresh (src base : List (String × JVal))
    (h1 : ∀ kv ∈ src, kv.1 ∉ keysOf base) (h2 : (keysOf src).Nodup) :
    mergeFields base src = base ++ src := by
  induction src generalizing base with
  | nil => simp [mergeFields]
  | cons kv rest ih =>
      obtain ⟨k, v⟩ := kv
      have hk : k ∉ keysOf base := h1 (k, v) (by simp)
      have hstep : mergeFields base ((k, v) :: rest) = mergeFields (setField base k v) rest := rfl
      rw [hstep, setField_not_mem base k v hk]
      have hkr : k ∉ keysOf rest := by
        simp only [keysOf, List.map_cons, List.nodup_cons] at h2
        exact h2.1
      rw [ih (base ++ [(k, v)]) ?_ ?_]
      · simp
      · intro kv' hkv'
        have := h1 kv' (by simp [hkv'])
        simp only [keysOf, List.map_append, List.mem_append, List.map_cons] at this ⊢
        push_neg
        refine ⟨this, ?_⟩
        simp only [List.map_nil, List.mem_singleton]
        intro he
        exact hkr (by simpa [keysOf, he] using List.mem_map_of_mem Prod.fst hkv')
      · simp only [keysOf, List.map_cons, List.nodup_cons] at h2
        exact h2.2

theorem keysOf_mergeFields_prefix (src base : List (String × JVal)) :
    ∃ ext, keysOf (mergeFields base src) = keysOf base ++ ext := by
  induction src generalizing base with
  | nil => exact ⟨[], by simp [mergeFields]⟩
  | cons kv rest ih =>
      have hstep : mergeFields base (kv :: rest) = mergeFields (setField base kv.1 kv.2) rest :=
        rfl
      obtain ⟨ext, hext⟩ := ih (setField base kv.1 kv.2)
      rw [hstep, hext, keysOf_setField]
      by_cases hm : kv.1 ∈ keysOf base
      · exact ⟨ext, by simp [hm]⟩
      · exact ⟨[kv.1] ++ ext, by simp [hm]⟩

theorem settings_merge_stable (src : List (String × JVal)) :
    mergeFields [("animalScoring", JVal.str "nasp3d")]
        (mergeFields [("animalScoring", JVal.str "nasp3d")] src)
      = mergeFields [("animalScoring", JVal.str "nasp3d")] src := by
  obtain ⟨ext, hext⟩ := keysOf_mergeFields_prefix src [("animalScoring", JVal.str "nasp3d")]
  have hnd := mergeFields_keys_nodup src [("animalScoring", JVal.str "nasp3d")] (by decide)
  cases hm : mergeFields [("animalScoring", JVal.str "nasp3d")] src with
  | nil =>
      rw [hm] at hext
      simp [keysOf] at hext
  | cons kv rest =>
      rw [hm] at hext hnd
      obtain ⟨k0, w⟩ := kv
      have hk0 : k0 = "animalScoring" := by
        simpa [keysOf] using congrArg (fun l => l.head?) hext
      subst hk0
      have hstep : mergeFields [("animalScoring", JVal.str "nasp3d")]
          (("animalScoring", w) :: rest)
            = mergeFields (setField [("animalScoring", JVal.str "nasp3d")] "animalScoring" w)
                rest := rfl
      have hset : setField [("animalScoring", JVal.str "nasp3d")] "animalScoring" w
          = [("animalScoring", w)] := rfl
      rw [hstep, hset]
      have hnotin : ∀ kv' ∈ rest, kv'.1 ∉ keysOf [("animalScoring", w)] := by
        intro kv' hkv'
        simp only [keysOf, List.map_cons, List.map_nil, List.mem_singleton]
        intro he
        simp only [keysOf, List.map_cons, List.nodup_cons] at hnd
        exact hnd.1 (he ▸ List.mem_map_of_mem Prod.fst hkv')
      have hnd2 : (keysOf rest).Nodup := by
        simp only [keysOf, List.map_cons, List.nodup_cons] at hnd
        exact hnd.2
      rw [mergeFields_fresh rest [("animalScoring", w)] hnotin hnd2]
      simp

/-! ### Record-level stability lemmas -/

theorem getField_eq_lookupProp (r : JVal) (k : String) :
    getField r k = (lookupProp r k).getD .undef := by
  cases r <;> rfl

theorem truthy_setObjField (r : JVal) (k : String) (v : JVal) :
    truthy (setObjField r k v) = truthy r := by
  cases r <;> rfl

theorem isObjJ_setObjField (r : JVal) (k : String) (v : JVal) :
    isObjJ (setObjField r k v) = isObjJ r := by
  cases r <;> rfl

theorem lookupProp_setObjField_self (r : JVal) (k : String) (v : JVal) (h : isObjJ r = true) :
    lookupProp (setObjField r k v) k = some v := by
  cases r <;> simp_all [isObjJ, setObjField, lookupProp, lookupField_setField_self]

theorem lookupProp_setObjField_ne (r : JVal) (k k' : String) (v : JVal) (h : k' ≠ k) :
    lookupProp (setObjField r k v) k' = lookupProp r k' := by
  cases r <;> simp [setObjField, lookupProp, lookupField_setField_ne _ _ _ _ h]

theorem setObjField_lookup_self (r : JVal) (k : String) (v : JVal)
    (h : lookupProp r k = some v) : setObjField r k v = r := by
  cases r <;> simp_all [lookupProp, setObjField, setField_lookup_self]

theorem coerceRounds_arr (z : JVal) : ∃ l, coerceRounds z = .arr l := by
  cases z <;> exact ⟨_, rfl⟩

theorem coerceRounds_idem (z : JVal) : coerceRounds (coerceRounds z) = coerceRounds z := by
  cases z <;> rfl

theorem migratePracticeOne_shape (s : JVal) :
    migratePracticeOne s = s ∨ ∃ X, migratePracticeOne s = setObjField s "bullseye" X := by
  unfold migratePracticeOne
  by_cases hc : (truthy s && truthy (getField s "bullseye")) = true
  · rw [if_pos hc]
    cases hb : getField s "bullseye" with
    | obj bfs => exact Or.inr ⟨_, rfl⟩
    | undef => exact Or.inl rfl
    | null => exact Or.inl rfl
    | bool b => exact Or.inl rfl
    | num n => exact Or.inl rfl
    | str s2 => exact Or.inl rfl
    | arr l => exact Or.inl rfl
  · rw [if_neg hc]
    exact Or.inl rfl

theorem migrateCompOne_shape (c : JVal) :
    migrateCompOne c = c ∨ (∃ X, migrateCompOne c = setObjField c "bullseye" X) ∨
      (∃ X Y, migrateCompOne c = setObjField (setObjField c "bullseye" X) "category" Y) := by
  unfold migrateCompOne
  by_cases hcc : (truthy c && roundIs c "bullseye" && truthy (getField c "bullseye")) = true
  · simp only [hcc, if_pos]
    by_cases hn : (isNum (getField (getField c "bullseye") "m10") ||
        isNum (getField (getField c "bullseye") "m15")) = true
    · simp only [hn, if_pos]
      by_cases ht : truthy (getField (setObjField c "bullseye"
          (.obj [("format", .str "legacy"),
                 ("m10", .arr [numOrZero (getField (getField c "bullseye") "m10")]),
                 ("m15", .arr [numOrZero (getField (getField c "bullseye") "m15")])]))
          "category") = true
      · simp only [ht, Bool.not_true, Bool.false_eq_true, if_false]
        exact Or.inr (Or.inl ⟨_, rfl⟩)
      · simp only [Bool.not_eq_true] at ht
        simp only [ht, Bool.not_false, if_pos]
        exact Or.inr (Or.inr ⟨_, _, rfl⟩)
    · simp only [hn, Bool.false_eq_true, if_false]
      exact Or.inl trivial
  · simp only [hcc, Bool.false_eq_true, if_false]
    exact Or.inl trivial

theorem migratePracticeOne_profileId (s : JVal) :
    lookupProp (migratePracticeOne s) "profileId" = lookupProp s "profileId" := by
  rcases migratePracticeOne_shape s with h | ⟨X, h⟩
  · rw [h]
  · rw [h, lookupProp_setObjField_ne _ _ _ _ (by decide)]

theorem migratePracticeOne_truthy (s : JVal) :
    truthy (migratePracticeOne s) = truthy s := by
  rcases migratePracticeOne_shape s with h | ⟨X, h⟩
  · rw [h]
  · rw [h, truthy_setObjField]

theorem migratePracticeOne_isObj (s : JVal) :
    isObjJ (migratePracticeOne s) = isObjJ s := by
  rcases migratePracticeOne_shape s with h | ⟨X, h⟩
  · rw [h]
  · rw [h, isObjJ_setObjField]

theorem migrateCompOne_profileId (c : JVal) :
    lookupProp (migrateCompOne c) "profileId" = lookupProp c "profileId" := by
  rcases migrateCompOne_shape c with h | ⟨X, h⟩ | ⟨X, Y, h⟩
  · rw [h]
  · rw [h, lookupProp_setObjField_ne _ _ _ _ (by decide)]
  · rw [h, lookupProp_setObjField_ne _ _ _ _ (by decide),
      lookupProp_setObjField_ne _ _ _ _ (by decide)]

theorem migrateCompOne_truthy (c : JVal) : truthy (migrateCompOne c) = truthy c := by
  rcases migrateCompOne_shape c with h | ⟨X, h⟩ | ⟨X, Y, h⟩
  · rw [h]
  · rw [h, truthy_setObjField]
  · rw [h, truthy_setObjField, truthy_setObjField]

theorem migrateCompOne_isObj (c : JVal) : isObjJ (migrateCompOne c) = isObjJ c := by
  rcases migrateCompOne_shape c with h | ⟨X, h⟩ | ⟨X, Y, h⟩
  · rw [h]
  · rw [h, isObjJ_setObjField]
  · rw [h, isObjJ_setObjField, isObjJ_setObjField]

theorem setObjField_not_obj (r : JVal) (k : String) (v : JVal) (h : isObjJ r = false) :
    setObjField r k v = r := by
  cases r <;> simp_all [isObjJ, setObjField]

theorem backfillOne_cases (pid x : JVal) :
    truthy (backfillOne pid x) = false ∨
    truthy (getField (backfillOne pid x) "profileId") = true ∨
    lookupProp (backfillOne pid x) "profileId" = some pid ∨
    isObjJ (backfillOne pid x) = false := by
  unfold backfillOne
  by_cases hc : (truthy x && !truthy (getField x "profileId")) = true
  · rw [if_pos hc]
    cases x with
    | obj fs =>
        exact Or.inr (Or.inr (Or.inl (lookupProp_setObjField_self _ _ _ rfl)))
    | _ => exact Or.inr (Or.inr (Or.inr (by simp [setObjField, isObjJ])))
  · rw [if_neg hc]
    rw [Bool.and_eq_true] at hc
    push_neg at hc
    by_cases ht : truthy x = true
    · have h2 : truthy (getField x "profileId") = true := by simpa using hc ht
      exact Or.inr (Or.inl h2)
    · exact Or.inl (by simpa using ht)

theorem backfillOne_of_props (pid t : JVal)
    (h : truthy t = false ∨ truthy (getField t "profileId") = true ∨
      lookupProp t "profileId" = some pid ∨ isObjJ t = false) :
    backfillOne pid t = t := by
  unfold backfillOne
  by_cases hc : (truthy t && !truthy (getField t "profileId")) = true
  · rw [if_pos hc]
    rw [Bool.and_eq_true] at hc
    rcases h with h | h | h | h
    · rw [hc.1] at h
      cases h
    · rw [h] at hc
      simp at hc
    · exact setObjField_lookup_self _ _ _ h
    · exact setObjField_not_obj _ _ _ h
  · rw [if_neg hc]

theorem backfill_fix (pid : JVal) (x : JVal) (g : JVal → JVal)
    (hg_pid : ∀ r, lookupProp (g r) "profileId" = lookupProp r "profileId")
    (hg_truthy : ∀ r, truthy (g r) = truthy r)
    (hg_obj : ∀ r, isObjJ (g r) = isObjJ r) :
    backfillOne pid (g (backfillOne pid x)) = g (backfillOne pid x) := by
  apply backfillOne_of_props
  have hgf : getField (g (backfillOne pid x)) "profileId"
      = getField (backfillOne pid x) "profileId" := by
    rw [getField_eq_lookupProp, getField_eq_lookupProp, hg_pid]
  rcases backfillOne_cases pid x with h | h | h | h
  · exact Or.inl (by rw [hg_truthy, h])
  · exact Or.inr (Or.inl (by rw [hgf, h]))
  · exact Or.inr (Or.inr (Or.inl (by rw [hg_pid, h])))
  · exact Or.inr (Or.inr (Or.inr (by rw [hg_obj, h])))

theorem backfillOne_idem (pid x : JVal) :
    backfillOne pid (backfillOne pid x) = backfillOne pid x :=
  backfill_fix pid x (fun r => r) (fun _ => rfl) (fun _ => rfl) (fun _ => rfl)

theorem getField_not_obj (r : JVal) (k : String) (h : isObjJ r = false) :
    getField r k = .undef := by
  cases r <;> simp_all [isObjJ, getField]

theorem migratePracticeOne_strong (s : JVal) :
    migratePracticeOne s = s ∨
    ∃ sfs bfs2 l10 l15, s = .obj sfs ∧
      migratePracticeOne s = .obj (setField sfs "bullseye" (.obj bfs2)) ∧
      lookupField bfs2 "m10" = some (.arr l10) ∧ lookupField bfs2 "m15" = some (.arr l15) := by
  by_cases hc : (truthy s && truthy (getField s "bullseye")) = true
  · cases s with
    | obj sfs =>
        cases hb : getField (.obj sfs) "bullseye" with
        | obj bfs =>
            right
            obtain ⟨l10, h10⟩ := coerceRounds_arr ((lookupField bfs "m10").getD .undef)
            obtain ⟨l15, h15⟩ := coerceRounds_arr
              ((lookupField (setField bfs "m10"
                  (coerceRounds ((lookupField bfs "m10").getD .undef))) "m15").getD .undef)
            refine ⟨sfs,
              setField (setField bfs "m10" (coerceRounds ((lookupField bfs "m10").getD .undef)))
                "m15" (coerceRounds ((lookupField (setField bfs "m10"
                  (coerceRounds ((lookupField bfs "m10").getD .undef))) "m15").getD .undef)),
              l10, l15, rfl, ?_, ?_, ?_⟩
            · unfold migratePracticeOne
              rw [if_pos hc, hb]
              rfl
            · rw [lookupField_setField_ne _ _ _ _ (by decide), lookupField_setField_self, h10]
            · rw [lookupField_setField_self, h15]
        | undef =>
            left
            unfold migratePracticeOne
            rw [if_pos hc, hb]
        | null =>
            left
            unfold migratePracticeOne
            rw [if_pos hc, hb]
        | bool b =>
            left
            unfold migratePracticeOne
            rw [if_pos hc, hb]
        | num n =>
            left
            unfold migratePracticeOne
            rw [if_pos hc, hb]
        | str s2 =>
            left
            unfold migratePracticeOne
            rw [if_pos hc, hb]
        | arr l =>
            left
            unfold migratePracticeOne
            rw [if_pos hc, hb]
    | _ =>
        exfalso
        rw [getField_not_obj _ _ (by rfl)] at hc
        simp [truthy] at hc
  · left
    unfold migratePracticeOne
    rw [if_neg hc]

theorem migratePracticeOne_fixpoint (rfs bfs2 : List (String × JVal)) (l10 l15 : List JVal)
    (hb : lookupField rfs "bullseye" = some (.obj bfs2))
    (h10 : lookupField bfs2 "m10" = some (.arr l10))
    (h15 : lookupField bfs2 "m15" = some (.arr l15)) :
    migratePracticeOne (.obj rfs) = .obj rfs := by
  have hg : getField (.obj rfs) "bullseye" = .obj bfs2 := by simp [getField, hb]
  unfold migratePracticeOne
  rw [if_pos (by simp [truthy, hg]), hg]
  simp only [h10, Option.getD_some, coerceRounds]
  rw [setField_lookup_self _ _ _ h10]
  simp only [h15, Option.getD_some, coerceRounds]
  rw [setField_lookup_self _ _ _ h15]
  simp only [setObjField]
  rw [setField_lookup_self _ _ _ hb]

theorem migratePracticeOne_idem (s : JVal) :
    migratePracticeOne (migratePracticeOne s) = migratePracticeOne s := by
  rcases migratePracticeOne_strong s with h | ⟨sfs, bfs2, l10, l15, hs, hm, h10, h15⟩
  · rw [h]
    exact h
  · rw [hm]
    exact migratePracticeOne_fixpoint _ _ _ _ (lookupField_setField_self _ _ _) h10 h15

theorem roundIs_eq_getField (c : JVal) (name : String) :
    roundIs c name = (match getField c "round" with
      | .str r => r == name
      | _ => false) := rfl

theorem roundIs_congr (a b : JVal) (name : String)
    (h : getField a "round" = getField b "round") : roundIs a name = roundIs b name := by
  rw [roundIs_eq_getField, roundIs_eq_getField, h]

theorem migrateCompOne_strong (c : JVal) :
    migrateCompOne c = c ∨
    (truthy (migrateCompOne c) = true ∧ roundIs (migrateCompOne c) "bullseye" = true ∧
      ∃ a b, getField (migrateCompOne c) "bullseye"
        = .obj [("format", .str "legacy"), ("m10", .arr [a]), ("m15", .arr [b])]) := by
  by_cases hcc : (truthy c && roundIs c "bullseye" && truthy (getField c "bullseye")) = true
  · by_cases hn : (isNum (getField (getField c "bullseye") "m10") ||
        isNum (getField (getField c "bullseye") "m15")) = true
    · right
      have hcc2 := hcc
      simp only [Bool.and_eq_true] at hcc2
      obtain ⟨⟨htc, hrc⟩, h3⟩ := hcc2
      have hco : isObjJ c = true := by
        by_contra hno
        rw [getField_not_obj c "bullseye" (by simpa using hno)] at h3
        simp [truthy] at h3
      have hm0 : migrateCompOne c =
          (if !truthy (getField (setObjField c "bullseye"
              (.obj [("format", .str "legacy"),
                     ("m10", .arr [numOrZero (getField (getField c "bullseye") "m10")]),
                     ("m15", .arr [numOrZero (getField (getField c "bullseye") "m15")])]))
              "category") then
            setObjField (setObjField c "bullseye"
              (.obj [("format", .str "legacy"),
                     ("m10", .arr [numOrZero (getField (getField c "bullseye") "m10")]),
                     ("m15", .arr [numOrZero (getField (getField c "bullseye") "m15")])]))
              "category" (.str "adult")
          else setObjField c "bullseye"
              (.obj [("format", .str "legacy"),
                     ("m10", .arr [numOrZero (getField (getField c "bullseye") "m10")]),
                     ("m15", .arr [numOrZero (getField (getField c "bullseye") "m15")])])) := by
        unfold migrateCompOne
        rw [if_pos hcc, if_pos hn]
      have hb1 : ∀ X : JVal, getField (setObjField c "bullseye" X) "bullseye" = X := by
        intro X
        rw [getField_eq_lookupProp, lookupProp_setObjField_self _ _ _ hco]
        rfl
      have hr1 : ∀ X : JVal, getField (setObjField c "bullseye" X) "round" = getField c "round" := by
        intro X
        rw [getField_eq_lookupProp, lookupProp_setObjField_ne _ _ _ _ (by decide),
          ← getField_eq_lookupProp]
      by_cases hcat : truthy (getField (setObjField c "bullseye"
          (.obj [("format", .str "legacy"),
                 ("m10", .arr [numOrZero (getField (getField c "bullseye") "m10")]),
                 ("m15", .arr [numOrZero (getField (getField c "bullseye") "m15")])]))
          "category") = true
      · have hm : migrateCompOne c = setObjField c "bullseye"
            (.obj [("format", .str "legacy"),
                   ("m10", .arr [numOrZero (getField (getField c "bullseye") "m10")]),
                   ("m15", .arr [numOrZero (getField (getField c "bullseye") "m15")])]) := by
          rw [hm0, if_neg (by simp [hcat])]
        refine ⟨?_, ?_, ?_⟩
        · rw [hm, truthy_setObjField, htc]
        · rw [hm, roundIs_congr _ c "bullseye" (hr1 _)]
          exact hrc
        · exact ⟨_, _, by rw [hm, hb1]⟩
      · have hcat' : truthy (getField (setObjField c "bullseye"
            (.obj [("format", .str "legacy"),
                   ("m10", .arr [numOrZero (getField (getField c "bullseye") "m10")]),
                   ("m15", .arr [numOrZero (getField (getField c "bullseye") "m15")])]))
            "category") = false := by
          simpa using hcat
        have hm : migrateCompOne c = setObjField (setObjField c "bullseye"
            (.obj [("format", .str "legacy"),
                   ("m10", .arr [numOrZero (getField (getField c "bullseye") "m10")]),
                   ("m15", .arr [numOrZero (getField (getField c "bullseye") "m15")])]))
            "category" (.str "adult") := by
          rw [hm0, if_pos (by rw [hcat']; rfl)]
        have hr2 : getField (setObjField (setObjField c "bullseye"
            (.obj [("format", .str "legacy"),
                   ("m10", .arr [numOrZero (getField (getField c "bullseye") "m10")]),
                   ("m15", .arr [numOrZero (getField (getField c "bullseye") "m15")])]))
            "category" (.str "adult")) "round" = getField c "round" := by
          rw [getField_eq_lookupProp, lookupProp_setObjField_ne _ _ _ _ (by decide),
            lookupProp_setObjField_ne _ _ _ _ (by decide), ← getField_eq_lookupProp]
        have hb2 : getField (setObjField (setObjField c "bullseye"
            (.obj [("format", .str "legacy"),
                   ("m10", .arr [numOrZero (getField (getField c "bullseye") "m10")]),
                   ("m15", .arr [numOrZero (getField (getField c "bullseye") "m15")])]))
            "category" (.str "adult")) "bullseye"
            = .obj [("format", .str "legacy"),
                    ("m10", .arr [numOrZero (getField (getField c "bullseye") "m10")]),
                    ("m15", .arr [numOrZero (getField (getField c "bullseye") "m15")])] := by
          rw [getField_eq_lookupProp, lookupProp_setObjField_ne _ _ _ _ (by decide),
            lookupProp_setObjField_self _ _ _ hco]
          rfl
        refine ⟨?_, ?_, ?_⟩
        · rw [hm, truthy_setObjField, truthy_setObjField, htc]
        · rw [hm, roundIs_congr _ c "bullseye" hr2]
          exact hrc
        · exact ⟨_, _, by rw [hm, hb2]⟩
    · left
      unfold migrateCompOne
      rw [if_pos hcc, if_neg hn]
  · left
    unfold migrateCompOne
    rw [if_neg hcc]

theorem migrateCompOne_fixpoint (t : JVal) (htr : truthy t = true)
    (hr : roundIs t "bullseye" = true) (a b : JVal)
    (hb : getField t "bullseye"
      = .obj [("format", .str "legacy"), ("m10", .arr [a]), ("m15", .arr [b])]) :
    migrateCompOne t = t := by
  have g10 : getField (JVal.obj [("format", JVal.str "legacy"), ("m10", JVal.arr [a]),
      ("m15", JVal.arr [b])]) "m10" = .arr [a] := rfl
  have g15 : getField (JVal.obj [("format", JVal.str "legacy"), ("m10", JVal.arr [a]),
      ("m15", JVal.arr [b])]) "m15" = .arr [b] := rfl
  unfold migrateCompOne
  rw [if_pos (by rw [htr, hr, hb]; rfl), if_neg (by rw [hb, g10, g15]; simp [isNum])]

theorem migrateCompOne_idem (c : JVal) :
    migrateCompOne (migrateCompOne c) = migrateCompOne c := by
  rcases migrateCompOne_strong c with h | ⟨ht, hr, a, b, hb⟩
  · rw [h]
    exact h
  · exact migrateCompOne_fixpoint _ ht hr a b hb

theorem practice_fix (pid x : JVal) :
    migratePracticeOne (backfillOne pid (migratePracticeOne (backfillOne pid x)))
      = migratePracticeOne (backfillOne pid x) := by
  rw [backfill_fix pid x migratePracticeOne migratePracticeOne_profileId
    migratePracticeOne_truthy migratePracticeOne_isObj]
  exact migratePracticeOne_idem _

theorem comp_fix (pid x : JVal) :
    migrateCompOne (backfillOne pid (migrateCompOne (backfillOne pid x)))
      = migrateCompOne (backfillOne pid x) := by
  rw [backfill_fix pid x migrateCompOne migrateCompOne_profileId
    migrateCompOne_truthy migrateCompOne_isObj]
  exact migrateCompOne_idem _

theorem contains_eq_false (l : List String) (k : String) (h : k ∉ l) :
    l.contains k = false := by
  induction l with
  | nil => rfl
  | cons a rest ih =>
      simp only [List.mem_cons] at h
      push_neg at h
      have hbeq : (k == a) = false := by simp [h.1]
      simp [List.contains_cons, hbeq, ih h.2]
      exact ⟨h.1, h.2⟩

theorem mergeFields_canonical (p n : String) (v1 v2 v3 v4 v5 v6 : JVal)
    (ex : List (String × JVal))
    (hex1 : ∀ kv ∈ ex, kv.1 ∉ topKeys)
    (hex2 : (keysOf ex).Nodup) :
    mergeFields (defaultStateFields p n)
        ([("profiles", v1), ("activeProfileId", v2), ("practice", v3),
          ("competitions", v4), ("aimMaps", v5), ("settings", v6)] ++ ex)
      = [("profiles", v1), ("activeProfileId", v2), ("practice", v3),
         ("competitions", v4), ("aimMaps", v5), ("settings", v6)] ++ ex := by
  have hsplit : mergeFields (defaultStateFields p n)
      ([("profiles", v1), ("activeProfileId", v2), ("practice", v3),
        ("competitions", v4), ("aimMaps", v5), ("settings", v6)] ++ ex)
      = mergeFields (mergeFields (defaultStateFields p n)
          [("profiles", v1), ("activeProfileId", v2), ("practice", v3),
           ("competitions", v4), ("aimMaps", v5), ("settings", v6)]) ex := by
    unfold mergeFields
    rw [List.foldl_append]
  have h6 : mergeFields (defaultStateFields p n)
      [("profiles", v1), ("activeProfileId", v2), ("practice", v3),
       ("competitions", v4), ("aimMaps", v5), ("settings", v6)]
      = [("profiles", v1), ("activeProfileId", v2), ("practice", v3),
         ("competitions", v4), ("aimMaps", v5), ("settings", v6)] := rfl
  have hfresh : ∀ kv ∈ ex, kv.1 ∉ keysOf
      [("profiles", v1), ("activeProfileId", v2), ("practice", v3),
       ("competitions", v4), ("aimMaps", v5), ("settings", v6)] := by
    intro kv hkv
    simpa [keysOf, topKeys] using hex1 kv hkv
  rw [hsplit, h6, mergeFields_fresh ex _ hfresh hex2]

theorem afterProfiles_some (u : Uids) (m s : List (String × JVal))
    (p0 c0 a0 profs : List JVal) (a1 pid : JVal)
    (hsome : (if truthy a1 then some a1
        else match profs with
          | [] => some JVal.undef
          | h :: _ => if nullish h then none else some (getField h "id")) = some pid) :
    afterProfiles u m s p0 c0 a0 profs a1 =
      ⟨profs, pid, (p0.map (backfillOne pid)).map migratePracticeOne,
       (c0.map (backfillOne pid)).map migrateCompOne, a0.map (backfillOne pid), s,
       m.filter (fun kv => !(topKeys.contains kv.1))⟩ := by
  unfold afterProfiles
  rw [hsome]

theorem afterProfiles_none (u : Uids) (m s : List (String × JVal))
    (p0 c0 a0 profs : List JVal) (a1 : JVal)
    (hnone : (if truthy a1 then some a1
        else match profs with
          | [] => some JVal.undef
          | h :: _ => if nullish h then none else some (getField h "id")) = none) :
    afterProfiles u m s p0 c0 a0 profs a1 = defaultSt u.cPid u.cNow := by
  unfold afterProfiles
  rw [hnone]

theorem afterProfiles_cases (u : Uids) (m s : List (String × JVal))
    (p0 c0 a0 profs : List JVal) (a1 : JVal) (hne : profs ≠ []) :
    afterProfiles u m s p0 c0 a0 profs a1 = defaultSt u.cPid u.cNow ∨
    ∃ pid, (truthy pid = true ∨
        ∃ h t, profs = h :: t ∧ nullish h = false ∧ getField h "id" = pid) ∧
      afterProfiles u m s p0 c0 a0 profs a1 =
        ⟨profs, pid, (p0.map (backfillOne pid)).map migratePracticeOne,
         (c0.map (backfillOne pid)).map migrateCompOne, a0.map (backfillOne pid), s,
         m.filter (fun kv => !(topKeys.contains kv.1))⟩ := by
  by_cases htr : truthy a1
  · right
    exact ⟨a1, Or.inl (by simpa using htr),
      afterProfiles_some u m s p0 c0 a0 profs a1 a1 (by rw [if_pos htr])⟩
  · cases profs with
    | nil => exact absurd rfl hne
    | cons h t =>
        by_cases hnl : nullish h
        · left
          refine afterProfiles_none u m s p0 c0 a0 (h :: t) a1 ?_
          rw [if_neg htr]
          show (if nullish h then none else some (getField h "id")) = none
          rw [if_pos hnl]
        · right
          refine ⟨getField h "id",
            Or.inr ⟨h, t, rfl, by simpa using hnl, rfl⟩,
            afterProfiles_some u m s p0 c0 a0 (h :: t) a1 (getField h "id") ?_⟩
          rw [if_neg htr]
          show (if nullish h then none else some (getField h "id")) = some (getField h "id")
          rw [if_neg hnl]

theorem loadStateNorm_eval_some (u : Uids) (d : JVal) (hd : nullish d = false)
    (xs : List JVal)
    (hx : nonemptyArr? ((lookupField (mergedOf u d) "profiles").getD .undef) = some xs) :
    loadStateNorm u d = afterProfiles u (mergedOf u d) (settingsOf d)
      (arrOr ((lookupField (mergedOf u d) "practice").getD .undef))
      (arrOr ((lookupField (mergedOf u d) "competitions").getD .undef))
      (arrOr ((lookupField (mergedOf u d) "aimMaps").getD .undef)) xs
      ((lookupField (mergedOf u d) "activeProfileId").getD .undef) := by
  unfold loadStateNorm
  rw [if_neg (by rw [hd]; simp)]
  simp only [hx]

theorem loadStateNorm_eval_none (u : Uids) (d : JVal) (hd : nullish d = false)
    (hx : nonemptyArr? ((lookupField (mergedOf u d) "profiles").getD .undef) = none) :
    loadStateNorm u d = afterProfiles u (mergedOf u d) (settingsOf d)
      (arrOr ((lookupField (mergedOf u d) "practice").getD .undef))
      (arrOr ((lookupField (mergedOf u d) "competitions").getD .undef))
      (arrOr ((lookupField (mergedOf u d) "aimMaps").getD .undef))
      [profileObj u.sPid u.sNow] (.str u.sPid) := by
  unfold loadStateNorm
  rw [if_neg (by rw [hd]; simp)]
  simp only [hx]

theorem contains_eq_true (l : List String) (k : String) (h : k ∈ l) :
    l.contains k = true := by
  induction l with
  | nil => simp at h
  | cons a rest ih =>
      simp only [List.contains_cons, Bool.or_eq_true, beq_iff_eq]
      rcases List.mem_cons.mp h with h1 | h1
      · exact Or.inl h1
      · exact Or.inr (ih h1)

theorem nonemptyArr?_some_ne_nil (v : JVal) (xs : List JVal) (h : nonemptyArr? v = some xs) :
    xs ≠ [] := by
  cases v with
  | arr l =>
      cases l with
      | nil => simp [nonemptyArr?] at h
      | cons a b =>
          simp only [nonemptyArr?, Option.some.injEq] at h
          rw [← h]
          simp
  | _ => simp [nonemptyArr?] at h

theorem run2_fixed (u : Uids) (profs : List JVal) (pid : JVal) (prac comps aims : List JVal)
    (sett ex : List (String × JVal))
    (hne : profs ≠ [])
    (hact : truthy pid = true ∨
      ∃ h t, profs = h :: t ∧ nullish h = false ∧ getField h "id" = pid)
    (hprac : prac.map (fun x => migratePracticeOne (backfillOne pid x)) = prac)
    (hcomp : comps.map (fun x => migrateCompOne (backfillOne pid x)) = comps)
    (haim : aims.map (backfillOne pid) = aims)
    (hset : mergeFields [("animalScoring", JVal.str "nasp3d")] sett = sett)
    (hex1 : ∀ kv ∈ ex, kv.1 ∉ topKeys)
    (hex2 : (keysOf ex).Nodup) :
    loadStateNorm u (toJVal ⟨profs, pid, prac, comps, aims, sett, ex⟩)
      = ⟨profs, pid, prac, comps, aims, sett, ex⟩ := by
  obtain ⟨h, t, hpro⟩ : ∃ h t, profs = h :: t := by
    cases profs with
    | nil => exact absurd rfl hne
    | cons h t => exact ⟨h, t, rfl⟩
  subst hpro
  have hmg : mergedOf u (toJVal ⟨h :: t, pid, prac, comps, aims, sett, ex⟩)
      = [("profiles", .arr (h :: t)), ("activeProfileId", pid), ("practice", .arr prac),
         ("competitions", .arr comps), ("aimMaps", .arr aims), ("settings", .obj sett)] ++ ex := by
    unfold mergedOf toJVal sourceProps
    exact mergeFields_canonical _ _ _ _ _ _ _ _ ex hex1 hex2
  have hst : settingsOf (toJVal ⟨h :: t, pid, prac, comps, aims, sett, ex⟩) = sett := by
    unfold settingsOf
    rw [show getField (toJVal ⟨h :: t, pid, prac, comps, aims, sett, ex⟩) "settings"
        = .obj sett from rfl]
    rw [if_pos (show truthy (JVal.obj sett) = true from rfl)]
    exact hset
  have hx : nonemptyArr? ((lookupField
      (mergedOf u (toJVal ⟨h :: t, pid, prac, comps, aims, sett, ex⟩)) "profiles").getD .undef)
      = some (h :: t) := by
    rw [hmg]
    rfl
  rw [loadStateNorm_eval_some u (toJVal ⟨h :: t, pid, prac, comps, aims, sett, ex⟩)
    (show nullish (toJVal ⟨h :: t, pid, prac, comps, aims, sett, ex⟩) = false from rfl)
    (h :: t) hx, hst, hmg]
  have hl1 : (lookupField
      ([("profiles", JVal.arr (h :: t)), ("activeProfileId", pid), ("practice", .arr prac),
        ("competitions", .arr comps), ("aimMaps", .arr aims), ("settings", .obj sett)] ++ ex)
      "practice").getD .undef = .arr prac := rfl
  have hl2 : (lookupField
      ([("profiles", JVal.arr (h :: t)), ("activeProfileId", pid), ("practice", .arr prac),
        ("competitions", .arr comps), ("aimMaps", .arr aims), ("settings", .obj sett)] ++ ex)
      "competitions").getD .undef = .arr comps := rfl
  have hl3 : (lookupField
      ([("profiles", JVal.arr (h :: t)), ("activeProfileId", pid), ("practice", .arr prac),
        ("competitions", .arr comps), ("aimMaps", .arr aims), ("settings", .obj sett)] ++ ex)
      "aimMaps").getD .undef = .arr aims := rfl
  have hl4 : (lookupField
      ([("profiles", JVal.arr (h :: t)), ("activeProfileId", pid), ("practice", .arr prac),
        ("competitions", .arr comps), ("aimMaps", .arr aims), ("settings", .obj sett)] ++ ex)
      "activeProfileId").getD .undef = pid := rfl
  rw [hl1, hl2, hl3, hl4]
  have hsome : (if truthy pid then some pid
      else match (h :: t : List JVal) with
        | [] => some JVal.undef
        | h0 :: _ => if nullish h0 then none else some (getField h0 "id")) = some pid := by
    by_cases htr : truthy pid
    · rw [if_pos htr]
    · rcases hact with ha | ⟨h0, t0, heq, hnl, hgf⟩
      · exact absurd ha (by simpa using htr)
      · injection heq with he1 he2
        subst he1
        rw [if_neg htr]
        show (if nullish h then none else some (getField h "id")) = some pid
        rw [if_neg (by simp [hnl]), hgf]
  rw [afterProfiles_some u _ _ _ _ _ _ _ _ hsome]
  have harr1 : arrOr (JVal.arr prac) = prac := rfl
  have harr2 : arrOr (JVal.arr comps) = comps := rfl
  have harr3 : arrOr (JVal.arr aims) = aims := rfl
  rw [harr1, harr2, harr3]
  rw [List.map_map, List.map_map]
  have hfp : (migratePracticeOne ∘ backfillOne pid) = fun x => migratePracticeOne (backfillOne pid x) := rfl
  have hfc : (migrateCompOne ∘ backfillOne pid) = fun x => migrateCompOne (backfillOne pid x) := rfl
  rw [hfp, hfc, hprac, hcomp, haim]
  rw [List.filter_append]
  have h6f : List.filter (fun kv => !(topKeys.contains kv.1))
      [("profiles", JVal.arr (h :: t)), ("activeProfileId", pid), ("practice", JVal.arr prac),
       ("competitions", JVal.arr comps), ("aimMaps", JVal.arr aims), ("settings", JVal.obj sett)]
      = [] := rfl
  have hexf : List.filter (fun kv => !(topKeys.contains kv.1)) ex = ex := by
    rw [List.filter_eq_self]
    intro kv hkv
    rw [contains_eq_false topKeys kv.1 (hex1 kv hkv)]
    rfl
  rw [h6f, hexf]
  rfl

theorem map_self_of_mem (f : JVal → JVal) (l : List JVal) (h : ∀ x ∈ l, f x = x) :
    l.map f = l := by
  induction l with
  | nil => rfl
  | cons a rest ih =>
      rw [List.map_cons, h a (by simp), ih (fun x hx => h x (by simp [hx]))]

theorem default_fixed (u : Uids) (p n : String) :
    loadStateNorm u (toJVal (defaultSt p n)) = defaultSt p n :=
  run2_fixed u [profileObj p n] (.str p) [] [] [] [("animalScoring", .str "nasp3d")] []
    (by simp) (Or.inr ⟨profileObj p n, [], rfl, rfl, rfl⟩) rfl rfl rfl rfl
    (by intro kv hkv; simp at hkv) (by simp [keysOf])

theorem idem_after (u2 u1 : Uids) (d : JVal) (p0 c0 a0 profs : List JVal) (a1 : JVal)
    (hne : profs ≠ []) :
    loadStateNorm u2 (toJVal (afterProfiles u1 (mergedOf u1 d) (settingsOf d) p0 c0 a0 profs a1))
      = afterProfiles u1 (mergedOf u1 d) (settingsOf d) p0 c0 a0 profs a1 := by
  rcases afterProfiles_cases u1 (mergedOf u1 d) (settingsOf d) p0 c0 a0 profs a1 hne with
    hdef | ⟨pid, hprov, heq⟩
  · rw [hdef]
    exact default_fixed u2 u1.cPid u1.cNow
  · rw [heq]
    refine run2_fixed u2 profs pid _ _ _ _ _ hne hprov ?_ ?_ ?_ ?_ ?_ ?_
    · refine map_self_of_mem _ _ ?_
      intro x hx
      simp only [List.mem_map] at hx
      obtain ⟨a, ⟨b, _, rfl⟩, rfl⟩ := hx
      exact practice_fix pid b
    · refine map_self_of_mem _ _ ?_
      intro x hx
      simp only [List.mem_map] at hx
      obtain ⟨a, ⟨b, _, rfl⟩, rfl⟩ := hx
      exact comp_fix pid b
    · refine map_self_of_mem _ _ ?_
      intro x hx
      simp only [List.mem_map] at hx
      obtain ⟨b, _, rfl⟩ := hx
      exact backfillOne_idem pid b
    · exact settings_merge_stable _
    · intro kv hkv
      have hp := List.of_mem_filter hkv
      intro hmem
      rw [contains_eq_true topKeys kv.1 hmem] at hp
      simp at hp
    · have hnd : (keysOf (mergedOf u1 d)).Nodup :=
        mergeFields_keys_nodup (sourceProps d) (defaultStateFields u1.mPid u1.mNow)
          (by
            show (["profiles", "activeProfileId", "practice", "competitions", "aimMaps",
              "settings"] : List String).Nodup
            decide)
      exact List.Nodup.sublist ((List.filter_sublist _).map Prod.fst) hnd

/-- C4: load-normalization is idempotent — for every parsed input document,
reinjecting the document produced by `loadState`'s normalization (default
merge, list coercion, profile synthesis, `profileId` back-fill, legacy
bullseye migration) and normalizing it again, with arbitrary fresh
`uid()`/timestamp draws, reproduces the same document. -/
theorem loadState_norm_idem (u2 u1 : Uids) (d : JVal) :
    loadStateNorm u2 (toJVal (loadStateNorm u1 d)) = loadStateNorm u1 d := by
  by_cases hd : nullish d = true
  · have h1 : loadStateNorm u1 d = defaultSt u1.cPid u1.cNow := by
      unfold loadStateNorm
      rw [if_pos hd]
    rw [h1]
    exact default_fixed u2 u1.cPid u1.cNow
  · have hd' : nullish d = false := by simpa using hd
    cases hpe : nonemptyArr? ((lookupField (mergedOf u1 d) "profiles").getD .undef) with
    | some xs =>
        rw [loadStateNorm_eval_some u1 d hd' xs hpe]
        exact idem_after u2 u1 d _ _ _ xs _ (nonemptyArr?_some_ne_nil _ xs hpe)
    | none =>
        rw [loadStateNorm_eval_none u1 d hd' hpe]
        exact idem_after u2 u1 d _ _ _ [profileObj u1.sPid u1.sNow] _ (by simp)

end Archery
